import Mathlib

/-!
# SumoBot-2: the behaviour controller of `routines.c`

A shallow embedding of the four routines of `src/routines.c`
(`routines_search`, `routines_attack`, `routines_spin`, `routines_victoryBack`)
and the properties of its counters and hand-offs.

## Modelling conventions

* The sensor and motor modules (`sonar.h`, `qti.h`, `motor.h`, `indicator.h`) are not part
  of the file.  Everything the routines read from them is supplied by an environment `Env`:
  the k-th read of `qti_touchingBounds`, the k-th call of `sonar_getRegion()`, the k-th call
  of `sonar_isNewDist(dir)`, the k-th read of `motor_currentSpeed[0]` / `[1]`, and the values
  of `motor_dirTurnA`, `motor_dirTurn`, `motor_dirTravelA`.  Every syntactic read in the
  source consumes the next value of its stream, so a value may change between two reads.
* Everything the routines send to those modules is appended to a chronological `log`.
* `int8_t` variables hold `Int` values; a value stored into an `int8_t` variable or passed as
  an `int8_t` argument goes through `wrap8`.  `uint8_t` counters are `Nat` and `x++` is
  `(x + 1) % 256`.
* The `while` loops need not terminate.  A loop function takes a budget of body executions
  and returns `Run.done st` when the loop condition failed in state `st`, and `Run.more st`
  when the budget ran out while the loop, in state `st`, was still running.
* The nested loops of `routines_search` are also given as a step function on their control
  points (`search_step`, `search_at`), which numbers every state a run goes through, also
  those after a boundary contact; every result of `search_loop` is one of these states
  (`search_loop_at`).
-/

namespace SumoBot

/-! ## Constants (routines.c, lines 29-38) -/

def MAX_TRACKING_MISSES : Nat := 8
def MAX_TRACKING_BOUNDS : Nat := 2
def SPOTTED_THRESHOLD : Nat := 3
def SPINOFF_COUNT : Nat := 5
def BACKUP_COUNT : Nat := 5

/-- Conversion of an integer to `int8_t` (two's complement wrap-around). -/
def wrap8 (x : Int) : Int := (x + 128) % 256 - 128

/-- The increment `x++` of a `uint8_t` variable. -/
def incU8 (x : Nat) : Nat := (x + 1) % 256

/-! ## Environment, state and result of a run -/

/-- Commands sent to the actuator modules, and calls of one routine by another. -/
inductive Event where
  | setSpeed (left right : Int)
  | greenSet (value : Int)
  | beep
  | delay_us (n : Nat)
  | call_attack (direction : Int)
  | call_victoryBack (direction : Int)
  | call_spin (direction : Int)
  deriving DecidableEq

/-- What the sensor and motor modules answer. -/
structure Env where
  /-- value of the k-th read of `qti_touchingBounds` -/
  touchingBounds : Nat → Int
  /-- value returned by the k-th call of `sonar_getRegion()` -/
  getRegion : Nat → Int
  /-- value returned by the k-th call of `sonar_isNewDist(dir)`, for its argument -/
  isNewDist : Nat → Int → Bool
  /-- value of the k-th read of `motor_currentSpeed[0]` -/
  currentSpeed0 : Nat → Int
  /-- value of the k-th read of `motor_currentSpeed[1]` -/
  currentSpeed1 : Nat → Int
  /-- value of `motor_dirTurnA` -/
  dirTurnA : Int
  /-- value of `motor_dirTurn` -/
  dirTurn : Int
  /-- value of `motor_dirTravelA` -/
  dirTravelA : Int

/-- How many values of each stream were consumed, and what was commanded so far. -/
structure St where
  nBounds : Nat
  nRegion : Nat
  nNew : Nat
  nSpeed : Nat
  nDist : Nat
  log : List Event
  deriving DecidableEq

/-- State at the call of a routine: nothing read, nothing commanded. -/
def St.init : St := ⟨0, 0, 0, 0, 0, []⟩

def St.emit (s : St) (e : Event) : St :=
  ⟨s.nBounds, s.nRegion, s.nNew, s.nSpeed, s.nDist, s.log ++ [e]⟩

def St.readBounds (s : St) : St :=
  ⟨s.nBounds + 1, s.nRegion, s.nNew, s.nSpeed, s.nDist, s.log⟩

def St.readRegion (s : St) : St :=
  ⟨s.nBounds, s.nRegion + 1, s.nNew, s.nSpeed, s.nDist, s.log⟩

def St.readNew (s : St) : St :=
  ⟨s.nBounds, s.nRegion, s.nNew + 1, s.nSpeed, s.nDist, s.log⟩

def St.readSpeed (s : St) : St :=
  ⟨s.nBounds, s.nRegion, s.nNew, s.nSpeed + 1, s.nDist, s.log⟩

def St.readDist (s : St) : St :=
  ⟨s.nBounds, s.nRegion, s.nNew, s.nSpeed, s.nDist + 1, s.log⟩

/-- Result of running a loop, or a routine, with a budget of loop-body executions. -/
inductive Run (α : Type) where
  | done : α → Run α
  | more : α → Run α
  deriving DecidableEq

def Run.val {α : Type} : Run α → α
  | .done a => a
  | .more a => a

def Run.isDone {α : Type} : Run α → Bool
  | .done _ => true
  | .more _ => false

/-! ## routines_spin (lines 161-186) -/

/-- The `for` loop of lines 177-185 with `n` iterations left: poll the raw distance, delay. -/
def spin_loop : Nat → St → St
  | 0, s => s
  | n + 1, s => spin_loop n ((s.readDist).emit (.delay_us 5))

def routines_spin (env : Env) (direction : Int) (s : St) : St :=
  let s1 :=
    if env.dirTurn = -1 then s.emit (.setSpeed (-direction) (3 * direction))
    else s.emit (.setSpeed (3 * direction) (-direction))
  spin_loop SPINOFF_COUNT s1

/-! ## routines_victoryBack (lines 189-209) -/

/-- The `for` loop of lines 201-205 with `n` iterations left: delay, beep, poll the region. -/
def backup_loop : Nat → St → St
  | 0, s => s
  | n + 1, s => backup_loop n ((((s.emit (.delay_us 5)).emit .beep)).readRegion)

def routines_victoryBack (direction : Int) (s : St) : St :=
  let s1 := s.emit (.setSpeed (3 * direction) (3 * direction))
  let s2 := s1.emit (.greenSet 1)
  let s3 := backup_loop BACKUP_COUNT s2
  s3.emit (.greenSet 0)

/-! ## routines_attack (lines 107-158) -/

/-- Local counters of `routines_attack`. -/
structure AttackVars where
  missCounter : Nat
  boundCounter : Nat
  deriving DecidableEq

/-- One execution of the loop body, lines 119-143. -/
def attack_body (env : Env) (direction : Int) (s : St) (v : AttackVars) : St × AttackVars :=
  -- line 120: sonar_getRegion(); the value is dropped
  let s1 := s.readRegion
  -- line 123: if (sonar_isNewDist(direction))
  let fresh := env.isNewDist s1.nNew direction
  let s2 := s1.readNew
  -- lines 125-132
  let s3 := if fresh then s2.readRegion else s2
  let miss :=
    if fresh then
      (if env.getRegion s2.nRegion ≠ direction then incU8 v.missCounter else 0)
    else v.missCounter
  -- lines 136-143: if (qti_touchingBounds)
  let q := env.touchingBounds s3.nBounds
  let s4 := s3.readBounds
  let bound := if q ≠ 0 then incU8 v.boundCounter else 0
  (s4, ⟨miss, bound⟩)

/-- The `while` loop of lines 116-145. -/
def attack_loop (env : Env) (direction : Int) : Nat → St → AttackVars → Run (St × AttackVars)
  | fuel, s, v =>
    if v.missCounter < MAX_TRACKING_MISSES ∧ v.boundCounter < MAX_TRACKING_BOUNDS then
      match fuel with
      | 0 => .more (s, v)
      | n + 1 =>
        let r := attack_body env direction s v
        attack_loop env direction n r.1 r.2
    else .done (s, v)

/-- Lines 146-157: the choice of the maneuver after the loop. -/
def attack_exit (env : Env) (direction : Int) (s : St) : St :=
  -- line 146
  let q1 := env.touchingBounds s.nBounds
  let s1 := s.readBounds
  if q1 ≠ 0 then
    -- line 148
    let q2 := env.touchingBounds s1.nBounds
    let s2 := s1.readBounds
    if q2 = direction then
      let arg := wrap8 (-direction)
      routines_victoryBack arg (s2.emit (.call_victoryBack arg))
    else
      -- line 152
      let q3 := env.touchingBounds s2.nBounds
      let s3 := s2.readBounds
      if q3 = -direction then
        -- line 155
        let q4 := env.touchingBounds s3.nBounds
        let s4 := s3.readBounds
        let arg := wrap8 q4
        routines_spin env arg (s4.emit (.call_spin arg))
      else s3
  else s1

def routines_attack (env : Env) (direction : Int) (fuel : Nat) (s : St) : Run St :=
  let s1 := s.emit (.setSpeed (3 * direction) (3 * direction))
  match attack_loop env direction fuel s1 ⟨0, 0⟩ with
  | .more r => .more r.1
  | .done r => .done (attack_exit env direction r.1)

/-! ## routines_search (lines 46-104) -/

/-- Local variables of `routines_search`. -/
structure SearchVars where
  objDetected : Int
  oldobjDetected : Int
  spotted : Nat
  deriving DecidableEq

/-- One execution of the body of the inner loop, lines 74-90. -/
def search_body (env : Env) (s : St) (v : SearchVars) : St × SearchVars :=
  -- line 75
  let old := v.objDetected
  -- line 77
  let obj := wrap8 (env.getRegion s.nRegion)
  let s1 := s.readRegion
  -- line 79
  let fresh := env.isNewDist s1.nNew obj
  let s2 := s1.readNew
  let spotted :=
    if fresh then
      (if obj = old ∧ obj ≠ 0 then incU8 v.spotted else 0)
    else v.spotted
  (s2, ⟨obj, old, spotted⟩)

/-- The inner `while` loop of lines 71-92.  Its condition reads `qti_touchingBounds`. -/
def search_inner (env : Env) : Nat → St → SearchVars → Run (St × SearchVars)
  | fuel, s, v =>
    if env.touchingBounds s.nBounds = 0 ∧ v.spotted < SPOTTED_THRESHOLD then
      match fuel with
      | 0 => .more (s, v)
      | n + 1 =>
        let r := search_body env s.readBounds v
        search_inner env n r.1 r.2
    else .done (s.readBounds, v)

/-- Lines 94-98: reverse both wheels when `objDetected` is null. -/
def search_flip (env : Env) (s : St) (v : SearchVars) : St :=
  if v.objDetected = 0 then
    (s.readSpeed).emit
      (.setSpeed (-(env.currentSpeed0 s.nSpeed)) (-(env.currentSpeed1 s.nSpeed)))
  else s

/-- The outer `while` loop of lines 67-99.  With the budget `n + 1` the inner loop of the
round gets the budget `n`, and so do the rounds that follow it.  A result `Run.done` is the
state in which the loops are left, for every run that leaves them.  A result `Run.more` is
a loop-head state of the run, but after a boundary contact not every loop-head state is
returned for some budget: every state of a run, one step after the other, is `search_at`
below. -/
def search_outer (env : Env) : Nat → St → SearchVars → Run (St × SearchVars)
  | fuel, s, v =>
    if v.spotted < SPOTTED_THRESHOLD then
      match fuel with
      | 0 => .more (s, v)
      | n + 1 =>
        match search_inner env n s v with
        | .more r => .more r
        | .done r => search_outer env n (search_flip env r.1 r.2) r.2
    else .done (s, v)

/-- Lines 49-65: the initial drive command and the initial values of the variables. -/
def search_start (env : Env) (s : St) : St :=
  if env.dirTurnA = -1 then s.emit (.setSpeed (-3) 3) else s.emit (.setSpeed 3 (-3))

/-- Lines 46-99 of `routines_search`: everything before the call of `routines_attack`. -/
def search_loop (env : Env) (fuel : Nat) : Run (St × SearchVars) :=
  search_outer env fuel (search_start env St.init) ⟨0, 0, 0⟩

def routines_search (env : Env) (fuel : Nat) : Run St :=
  match search_loop env fuel with
  | .more r => .more r.1
  | .done r =>
    -- line 102
    routines_attack env r.2.objDetected fuel (r.1.emit (.call_attack r.2.objDetected))

/-! ### routines_search, one step after the other

The same loops as a step function on the control points of lines 67-102, so that every
state a run goes through has a number: `search_at env n` is the state after `n` steps. -/

/-- Control points of `routines_search`: the head of the outer loop (line 67), the head of
the inner loop (line 71), and the call of `routines_attack` (line 102). -/
inductive SearchPoint where
  | outerHead
  | innerHead
  | handoff
  deriving DecidableEq

/-- A control point with the state and the local variables there. -/
structure SearchConfig where
  point : SearchPoint
  st : St
  vars : SearchVars
  deriving DecidableEq

/-- One step of `routines_search`.  At the head of the outer loop: enter the inner loop if
`spotted < 3` (line 67), else go to the call of line 102.  At the head of the inner loop:
read `qti_touchingBounds`; if the condition of line 71 holds run the body (lines 74-90),
else leave the inner loop, run lines 94-98 and go back to line 67. -/
def search_step (env : Env) (c : SearchConfig) : SearchConfig :=
  match c.point with
  | .outerHead =>
    if c.vars.spotted < SPOTTED_THRESHOLD then ⟨.innerHead, c.st, c.vars⟩
    else ⟨.handoff, c.st, c.vars⟩
  | .innerHead =>
    if env.touchingBounds c.st.nBounds = 0 ∧ c.vars.spotted < SPOTTED_THRESHOLD then
      ⟨.innerHead, (search_body env c.st.readBounds c.vars).1,
        (search_body env c.st.readBounds c.vars).2⟩
    else ⟨.outerHead, search_flip env c.st.readBounds c.vars, c.vars⟩
  | .handoff => c

/-- The state of `routines_search` after `n` steps, from the state of lines 49-65. -/
def search_at (env : Env) : Nat → SearchConfig
  | 0 => ⟨.outerHead, search_start env St.init, ⟨0, 0, 0⟩⟩
  | n + 1 => search_step env (search_at env n)


/-! ## The history of proximity polls in Search

In `routines_search` the k-th poll is the k-th call of `sonar_getRegion()` followed by the
k-th call of `sonar_isNewDist`, so the history of polls is read off the environment. -/

/-- Region stored into `objDetected` by the k-th poll of `routines_search` (line 77). -/
def polledRegion (env : Env) (k : Nat) : Int := wrap8 (env.getRegion k)

/-- Whether the k-th poll of `routines_search` is a fresh sample (line 79). -/
def polledFresh (env : Env) (k : Nat) : Bool := env.isNewDist k (polledRegion env k)

/-- Region returned by the poll just before the k-th one, fresh or stale; null before the
first poll (line 49). -/
def regionBefore (env : Env) : Nat → Int
  | 0 => 0
  | j + 1 => polledRegion env j

/-- Indices of the fresh polls among the first `n` polls, the most recent first. -/
def freshPolls (env : Env) : Nat → List Nat
  | 0 => []
  | n + 1 => if polledFresh env n then n :: freshPolls env n else freshPolls env n

/-- Region of the most recent fresh sample among the first `n` polls; null when there is
none. -/
def lastFreshRegion (env : Env) (n : Nat) : Int :=
  match freshPolls env n with
  | [] => 0
  | k :: _ => polledRegion env k

/-- The counter as the specification words it for sequences of fresh samples: after a poll
it is 0 if the latest region is null or differs from the region polled just before it, and
one more than its previous value otherwise. -/
def spottedSpec (env : Env) : Nat → Nat
  | 0 => 0
  | n + 1 =>
    if polledRegion env n = 0 ∨ polledRegion env n ≠ regionBefore env n then 0
    else spottedSpec env n + 1

/-- The k-th poll confirms a sighting for the code: its region is non-null and equals the
region returned by the poll just before it (line 81). -/
def confirms (env : Env) (k : Nat) : Prop :=
  polledRegion env k ≠ 0 ∧ polledRegion env k = regionBefore env k

instance (env : Env) (k : Nat) : Decidable (confirms env k) := by
  unfold confirms
  infer_instance

/-- What holds of the variables of `routines_search` at every point of its loops: the two
sonar streams advance together, `objDetected` is the region polled last, and the `spotted`
most recent fresh polls each confirmed a sighting, the last poll being one of them once
the threshold is reached. -/
def SearchInv (env : Env) (s : St) (v : SearchVars) : Prop :=
  s.nNew = s.nRegion ∧ v.objDetected = regionBefore env s.nRegion ∧
  v.spotted ≤ SPOTTED_THRESHOLD ∧
  v.spotted ≤ (freshPolls env s.nRegion).length ∧
  (∀ k ∈ (freshPolls env s.nRegion).take v.spotted, confirms env k) ∧
  (v.spotted = SPOTTED_THRESHOLD → ∃ n, s.nRegion = n + 1 ∧ polledFresh env n = true)

/-- What holds of the variables of `routines_search` at every point of its loops when all
samples are fresh: `spotted` is the counter of the specification. -/
def FreshInv (env : Env) (s : St) (v : SearchVars) : Prop :=
  s.nNew = s.nRegion ∧ v.objDetected = regionBefore env s.nRegion ∧
  v.spotted = spottedSpec env s.nRegion

/-- The calls of a maneuver (`routines_victoryBack`, `routines_spin`) in a log. -/
def maneuverCalls (l : List Event) : List Event :=
  l.filter (fun e =>
    match e with
    | .call_victoryBack _ => true
    | .call_spin _ => true
    | _ => false)

/-- The drive commands (`motor_setSpeed`) in a log. -/
def driveCommands (l : List Event) : List Event :=
  l.filter (fun e =>
    match e with
    | .setSpeed _ _ => true
    | _ => false)

/-- The indicator commands (`indicator_greenSet`, `indicator_beep`) in a log. -/
def indicatorCommands (l : List Event) : List Event :=
  l.filter (fun e =>
    match e with
    | .greenSet _ => true
    | .beep => true
    | _ => false)

/-- Modelled from the spec: the state of the visual indicator after the commands of a log,
`indicator.c` not being part of the sources; the indicator shows the value of the last
`indicator_greenSet`, and `g` before any. -/
def greenAfter (g : Int) : List Event → Int
  | [] => g
  | .greenSet v :: l => greenAfter v l
  | .setSpeed _ _ :: l => greenAfter g l
  | .beep :: l => greenAfter g l
  | .delay_us _ :: l => greenAfter g l
  | .call_attack _ :: l => greenAfter g l
  | .call_victoryBack _ :: l => greenAfter g l
  | .call_spin _ :: l => greenAfter g l

/-- Modelled from the spec: the state of the visual indicator at each beep of a log, in
order, the indicator showing `g` at first. -/
def greenAtBeeps (g : Int) : List Event → List Int
  | [] => []
  | .greenSet v :: l => greenAtBeeps v l
  | .beep :: l => g :: greenAtBeeps g l
  | .setSpeed _ _ :: l => greenAtBeeps g l
  | .delay_us _ :: l => greenAtBeeps g l
  | .call_attack _ :: l => greenAtBeeps g l
  | .call_victoryBack _ :: l => greenAtBeeps g l
  | .call_spin _ :: l => greenAtBeeps g l

/-! ## Concrete environments -/

/-- An environment given by finite lists (padded with 0, and with stale), with constant
wheel speeds `(sp0, sp1)` and the turn sense `turn` for `motor_dirTurnA` and
`motor_dirTurn`. -/
def envOf (bounds regions : List Int) (fresh : List Bool) (sp0 sp1 turn : Int) : Env :=
  ⟨fun k => bounds.getD k 0, fun k => regions.getD k 0, fun k _ => fresh.getD k false,
   fun _ => sp0, fun _ => sp1, turn, turn, 0⟩

/-- An environment all of whose samples are fresh, with regions and boundary readings given
by finite lists padded with 0. -/
def envFresh (bounds regions : List Int) (turn : Int) : Env :=
  ⟨fun k => bounds.getD k 0, fun k => regions.getD k 0, fun _ _ => true,
   fun _ => 3, fun _ => -3, turn, turn, 0⟩

/-- Four fresh polls reporting region 1, no boundary contact. -/
def envFourSightings : Env := envFresh [] [1, 1, 1, 1] 1

/-- Fresh polls reporting 1, 1, 1, 0, -1, -1, ... and no boundary contact. -/
def envMixedFresh : Env := envFresh [] [1, 1, 1, 0, -1, -1, -1, -1] 1

/-- Polls: 1 stale, 1 fresh, -1 stale, -1 fresh, -1 fresh; no boundary contact. -/
def envStaleBetween : Env :=
  envOf [] [1, 1, -1, -1, -1] [false, true, false, true, true] 3 (-3) 1

/-- Polls: 1 fresh, -1 stale, -1 fresh; no boundary contact. -/
def envStaleSwitch : Env := envOf [] [1, -1, -1] [true, false, true] 3 (-3) 1

/-- One poll reporting region 1, then boundary contact that lasts. -/
def envSightingAtEdge : Env := envOf [0, 1, 1, 1, 1] [1] [true] 3 (-3) 1

/-- No sighting, then one read of boundary contact; the wheels run at (3, -3). -/
def envEdgeNoSighting : Env := envOf [0, 1] [0] [true] 3 (-3) 1

/-- Stale samples throughout and boundary contact on the first two reads only. -/
def envTwoContacts : Env := envOf [1, 1] [] [] 3 3 1

/-- Two fresh mismatching samples, boundary contact on the second cycle only. -/
def envMissAndContact : Env := envOf [0, 1, 0] [0, -1, 0, -1] [true, true] 3 3 1

/-- Every region read returns 1, samples are stale, and the first four boundary reads
return 1. -/
def envPushedOut : Env :=
  ⟨fun k => [1, 1, 1, 1].getD k 0, fun _ => 1, fun _ _ => false, fun _ => 3, fun _ => 3,
   1, 1, 0⟩

/-- Every region read returns 1, samples are stale, and the first six boundary reads
return -1. -/
def envBeingPushed : Env :=
  ⟨fun k => [-1, -1, -1, -1, -1, -1].getD k 0, fun _ => 1, fun _ _ => false, fun _ => 3,
   fun _ => 3, 1, 1, 0⟩

/-- Eight fresh samples reporting -1 at every call, no boundary contact. -/
def envLostTarget : Env :=
  ⟨fun _ => 0, fun _ => -1, fun _ _ => true, fun _ => 3, fun _ => 3, 1, 1, 0⟩

/-- No target and no boundary: every region read is null, every sample stale, no boundary
contact. -/
def envQuiet : Env :=
  ⟨fun _ => 0, fun _ => 0, fun _ _ => false, fun _ => 3, fun _ => -3, 1, 1, 0⟩

/-- Every sample fresh and reporting the null region; no boundary contact on the first
eight boundary reads, contact `d` on every later one. -/
def envLateContact (d : Int) : Env :=
  ⟨fun k => if k < 8 then 0 else d, fun _ => 0, fun _ _ => true, fun _ => 3, fun _ => 3,
   1, 1, 0⟩

/-- Every sample stale; boundary contact 1 on the first two boundary reads, none later. -/
def envContactGone : Env :=
  ⟨fun k => if k < 2 then 1 else 0, fun _ => 0, fun _ _ => false, fun _ => 3, fun _ => 3,
   1, 1, 0⟩

/-- Fresh polls reporting 1, 1, 1, -1, and boundary contact on the fourth boundary read
only, between the third and the fourth poll. -/
def envGap : Env := envFresh [0, 0, 0, 1] [1, 1, 1, -1] 1

/-! # Theorems -/

/-! ## Unfolding the loops -/

theorem incU8_of_lt {x : Nat} (h : x < 255) : incU8 x = x + 1 := by
  unfold incU8
  omega

theorem search_inner_exit (env : Env) (fuel : Nat) (s : St) (v : SearchVars)
    (h : ¬ (env.touchingBounds s.nBounds = 0 ∧ v.spotted < SPOTTED_THRESHOLD)) :
    search_inner env fuel s v = .done (s.readBounds, v) := by
  cases fuel <;> simp [search_inner, h]

theorem search_inner_zero (env : Env) (s : St) (v : SearchVars)
    (h : env.touchingBounds s.nBounds = 0 ∧ v.spotted < SPOTTED_THRESHOLD) :
    search_inner env 0 s v = .more (s, v) := by
  simp [search_inner, h]

theorem search_inner_succ (env : Env) (n : Nat) (s : St) (v : SearchVars)
    (h : env.touchingBounds s.nBounds = 0 ∧ v.spotted < SPOTTED_THRESHOLD) :
    search_inner env (n + 1) s v
      = search_inner env n (search_body env s.readBounds v).1
          (search_body env s.readBounds v).2 := by
  simp [search_inner, h]

theorem search_outer_exit (env : Env) (fuel : Nat) (s : St) (v : SearchVars)
    (h : ¬ v.spotted < SPOTTED_THRESHOLD) :
    search_outer env fuel s v = .done (s, v) := by
  cases fuel <;> simp [search_outer, h]

theorem search_outer_zero (env : Env) (s : St) (v : SearchVars)
    (h : v.spotted < SPOTTED_THRESHOLD) :
    search_outer env 0 s v = .more (s, v) := by
  simp [search_outer, h]

theorem search_outer_succ (env : Env) (n : Nat) (s : St) (v : SearchVars)
    (h : v.spotted < SPOTTED_THRESHOLD) :
    search_outer env (n + 1) s v
      = match search_inner env n s v with
        | .more r => .more r
        | .done r => search_outer env n (search_flip env r.1 r.2) r.2 := by
  simp [search_outer, h]

/-! ## Invariants of the Search loops -/

/-- A property kept by the loop body (under the loop condition) and by a read of
`qti_touchingBounds` holds in whatever state the inner loop is left or interrupted. -/
theorem search_inner_inv (env : Env) (P : St → SearchVars → Prop)
    (hbody : ∀ s v, P s v → env.touchingBounds s.nBounds = 0 → v.spotted < SPOTTED_THRESHOLD →
      P (search_body env s.readBounds v).1 (search_body env s.readBounds v).2)
    (hread : ∀ s v, P s v → P s.readBounds v) :
    ∀ (fuel : Nat) (s : St) (v : SearchVars), P s v →
      P (search_inner env fuel s v).val.1 (search_inner env fuel s v).val.2 := by
  intro fuel
  induction fuel with
  | zero =>
    intro s v h
    by_cases hc : env.touchingBounds s.nBounds = 0 ∧ v.spotted < SPOTTED_THRESHOLD
    · rw [search_inner_zero env s v hc]; exact h
    · rw [search_inner_exit env 0 s v hc]; exact hread s v h
  | succ n ih =>
    intro s v h
    by_cases hc : env.touchingBounds s.nBounds = 0 ∧ v.spotted < SPOTTED_THRESHOLD
    · rw [search_inner_succ env n s v hc]
      exact ih _ _ (hbody s v h hc.1 hc.2)
    · rw [search_inner_exit env (n + 1) s v hc]; exact hread s v h

/-- The same for the outer loop, the property being kept by the reversal of lines 94-98
too. -/
theorem search_outer_inv (env : Env) (P : St → SearchVars → Prop)
    (hbody : ∀ s v, P s v → env.touchingBounds s.nBounds = 0 → v.spotted < SPOTTED_THRESHOLD →
      P (search_body env s.readBounds v).1 (search_body env s.readBounds v).2)
    (hread : ∀ s v, P s v → P s.readBounds v)
    (hflip : ∀ s v, P s v → P (search_flip env s v) v) :
    ∀ (fuel : Nat) (s : St) (v : SearchVars), P s v →
      P (search_outer env fuel s v).val.1 (search_outer env fuel s v).val.2 := by
  intro fuel
  induction fuel with
  | zero =>
    intro s v h
    by_cases hc : v.spotted < SPOTTED_THRESHOLD
    · rw [search_outer_zero env s v hc]; exact h
    · rw [search_outer_exit env 0 s v hc]; exact h
  | succ n ih =>
    intro s v h
    by_cases hc : v.spotted < SPOTTED_THRESHOLD
    · rw [search_outer_succ env n s v hc]
      have hin := search_inner_inv env P hbody hread n s v h
      cases hr : search_inner env n s v with
      | more r => rw [hr] at hin; exact hin
      | done r =>
        rw [hr] at hin
        exact ih _ _ (hflip _ _ hin)
    · rw [search_outer_exit env (n + 1) s v hc]; exact h

/-- The outer loop is left only when its condition fails. -/
theorem search_outer_done (env : Env) :
    ∀ (fuel : Nat) (s : St) (v : SearchVars) (r : St × SearchVars),
      search_outer env fuel s v = .done r → ¬ r.2.spotted < SPOTTED_THRESHOLD := by
  intro fuel
  induction fuel with
  | zero =>
    intro s v r h
    by_cases hc : v.spotted < SPOTTED_THRESHOLD
    · rw [search_outer_zero env s v hc] at h; cases h
    · rw [search_outer_exit env 0 s v hc] at h; cases h; exact hc
  | succ n ih =>
    intro s v r h
    by_cases hc : v.spotted < SPOTTED_THRESHOLD
    · rw [search_outer_succ env n s v hc] at h
      cases hr : search_inner env n s v with
      | more r1 => rw [hr] at h; cases h
      | done r1 => rw [hr] at h; exact ih _ _ _ h
    · rw [search_outer_exit env (n + 1) s v hc] at h; cases h; exact hc

/-- While the inner loop runs its condition holds. -/
theorem search_inner_more (env : Env) :
    ∀ (fuel : Nat) (s : St) (v : SearchVars) (r : St × SearchVars),
      search_inner env fuel s v = .more r →
      env.touchingBounds r.1.nBounds = 0 ∧ r.2.spotted < SPOTTED_THRESHOLD := by
  intro fuel
  induction fuel with
  | zero =>
    intro s v r h
    by_cases hc : env.touchingBounds s.nBounds = 0 ∧ v.spotted < SPOTTED_THRESHOLD
    · rw [search_inner_zero env s v hc] at h; cases h; exact hc
    · rw [search_inner_exit env 0 s v hc] at h; cases h
  | succ n ih =>
    intro s v r h
    by_cases hc : env.touchingBounds s.nBounds = 0 ∧ v.spotted < SPOTTED_THRESHOLD
    · rw [search_inner_succ env n s v hc] at h; exact ih _ _ _ h
    · rw [search_inner_exit env (n + 1) s v hc] at h; cases h

/-- While the outer loop runs its condition holds. -/
theorem search_outer_more (env : Env) :
    ∀ (fuel : Nat) (s : St) (v : SearchVars) (r : St × SearchVars),
      search_outer env fuel s v = .more r → r.2.spotted < SPOTTED_THRESHOLD := by
  intro fuel
  induction fuel with
  | zero =>
    intro s v r h
    by_cases hc : v.spotted < SPOTTED_THRESHOLD
    · rw [search_outer_zero env s v hc] at h; cases h; exact hc
    · rw [search_outer_exit env 0 s v hc] at h; cases h
  | succ n ih =>
    intro s v r h
    by_cases hc : v.spotted < SPOTTED_THRESHOLD
    · rw [search_outer_succ env n s v hc] at h
      cases hr : search_inner env n s v with
      | more r1 =>
        rw [hr] at h; cases h
        exact (search_inner_more env n s v _ hr).2
      | done r1 => rw [hr] at h; exact ih _ _ _ h
    · rw [search_outer_exit env (n + 1) s v hc] at h; cases h

/-- The counter of Search never exceeds the threshold. -/
theorem search_outer_spotted_le (env : Env) (fuel : Nat) (s : St) (v : SearchVars)
    (h : v.spotted ≤ SPOTTED_THRESHOLD) :
    (search_outer env fuel s v).val.2.spotted ≤ SPOTTED_THRESHOLD := by
  refine search_outer_inv env (fun _ v => v.spotted ≤ SPOTTED_THRESHOLD) ?_ ?_ ?_ fuel s v h
  · intro s v _ _ hlt
    simp only [search_body, SPOTTED_THRESHOLD, incU8] at *
    split_ifs <;> omega
  · intro s v h; exact h
  · intro s v h; exact h

/-! ## C1 -/

/-- C1: whenever the loops of `routines_search` are left, which is the one place where
`routines_search` calls `routines_attack` (line 102), `spotted` equals
`SPOTTED_THRESHOLD` (3); the call is made in that very state. -/
theorem search_handoff_at_threshold (env : Env) (fuel : Nat) (r : St × SearchVars)
    (h : search_loop env fuel = .done r) :
    r.2.spotted = SPOTTED_THRESHOLD ∧ SPOTTED_THRESHOLD = 3 ∧
    routines_search env fuel
      = routines_attack env r.2.objDetected fuel (r.1.emit (.call_attack r.2.objDetected)) := by
  have hge := search_outer_done env fuel _ _ r h
  have hle := search_outer_spotted_le env fuel (search_start env St.init) ⟨0, 0, 0⟩
    (by simp [SPOTTED_THRESHOLD])
  unfold search_loop at h
  rw [h] at hle
  simp only [Run.val, SPOTTED_THRESHOLD] at hle hge ⊢
  refine ⟨by omega, trivial, ?_⟩
  simp [routines_search, search_loop, h]

/-- C1 at a concrete input: four fresh sightings of region 1 end Search with `spotted = 3`. -/
theorem search_handoff_at_threshold_witness :
    search_loop envFourSightings 5
      = .done (⟨5, 4, 4, 0, 0, [.setSpeed 3 (-3)]⟩, ⟨1, 1, 3⟩) ∧
    (3 : Nat) = SPOTTED_THRESHOLD ∧ SPOTTED_THRESHOLD = 3 ∧
    routines_search envFourSightings 5
      = routines_attack envFourSightings 1 5
          ((⟨5, 4, 4, 0, 0, [.setSpeed 3 (-3)]⟩ : St).emit (.call_attack 1)) :=
  ⟨by decide, search_handoff_at_threshold envFourSightings 5
    (⟨5, 4, 4, 0, 0, [.setSpeed 3 (-3)]⟩, ⟨1, 1, 3⟩) (by decide)⟩

/-! ## C2 -/

theorem searchInv_body (env : Env) (s : St) (v : SearchVars) (h : SearchInv env s v)
    (hlt : v.spotted < SPOTTED_THRESHOLD) :
    SearchInv env (search_body env s.readBounds v).1 (search_body env s.readBounds v).2 := by
  obtain ⟨h1, h2, h3, h4, h5, _⟩ := h
  have e1 : (search_body env s.readBounds v).1.nNew = s.nNew + 1 := rfl
  have e2 : (search_body env s.readBounds v).1.nRegion = s.nRegion + 1 := rfl
  have e3 : (search_body env s.readBounds v).2.objDetected = polledRegion env s.nRegion := rfl
  have e4 : (search_body env s.readBounds v).2.spotted
      = if env.isNewDist s.nNew (polledRegion env s.nRegion) = true then
          (if polledRegion env s.nRegion = v.objDetected ∧ polledRegion env s.nRegion ≠ 0
            then incU8 v.spotted else 0)
        else v.spotted := rfl
  have e5 : freshPolls env (s.nRegion + 1)
      = if polledFresh env s.nRegion = true then s.nRegion :: freshPolls env s.nRegion
        else freshPolls env s.nRegion := rfl
  have e6 : env.isNewDist s.nRegion (polledRegion env s.nRegion)
      = polledFresh env s.nRegion := rfl
  have e7 : regionBefore env (s.nRegion + 1) = polledRegion env s.nRegion := rfl
  have hinc : incU8 v.spotted = v.spotted + 1 :=
    incU8_of_lt (by simp only [SPOTTED_THRESHOLD] at hlt; omega)
  unfold SearchInv
  rw [e1, e2, e3, e4, e5, e7, h1, e6]
  refine ⟨rfl, rfl, ?_⟩
  by_cases hf : polledFresh env s.nRegion = true
  · rw [if_pos hf, if_pos hf]
    by_cases hc : polledRegion env s.nRegion = v.objDetected ∧ polledRegion env s.nRegion ≠ 0
    · rw [if_pos hc, hinc]
      refine ⟨hlt, by simp only [List.length_cons]; omega, ?_, ?_⟩
      · intro k hk
        rw [List.take_succ_cons, List.mem_cons] at hk
        rcases hk with hk | hk
        · subst hk
          exact ⟨hc.2, by rw [← h2]; exact hc.1⟩
        · exact h5 k hk
      · intro _
        exact ⟨s.nRegion, rfl, hf⟩
    · rw [if_neg hc]
      refine ⟨Nat.zero_le _, Nat.zero_le _, ?_, ?_⟩
      · intro k hk; simp at hk
      · intro h0; simp [SPOTTED_THRESHOLD] at h0
  · rw [if_neg hf, if_neg hf]
    refine ⟨h3, h4, h5, ?_⟩
    intro h0; omega

theorem searchInv_loop (env : Env) (fuel : Nat) :
    SearchInv env (search_loop env fuel).val.1 (search_loop env fuel).val.2 := by
  unfold search_loop
  refine search_outer_inv env (SearchInv env) ?_ ?_ ?_ fuel _ _ ?_
  · intro s v h _ hlt
    exact searchInv_body env s v h hlt
  · intro s v h; exact h
  · intro s v h
    unfold search_flip
    split_ifs
    · exact h
    · exact h
  · unfold search_start
    split_ifs <;>
      simp [SearchInv, St.emit, St.init, regionBefore, freshPolls, SPOTTED_THRESHOLD]

/-- C2 (amended): at the hand-off to `routines_attack` the direction `d = objDetected` is
non-null, the last poll is a fresh sample reporting `d`, and each of the three most recent
fresh samples reported a non-null region equal to the region returned by the poll just
before it (fresh or stale); when no stale poll lies between these three fresh samples,
all three reported `d`. -/
theorem search_handoff_confirmed (env : Env) (fuel : Nat) (r : St × SearchVars)
    (h : search_loop env fuel = .done r) :
    r.2.objDetected ≠ 0 ∧
    ∃ k1 k2 k3 rest, freshPolls env r.1.nRegion = k1 :: k2 :: k3 :: rest ∧
      k1 + 1 = r.1.nRegion ∧ polledRegion env k1 = r.2.objDetected ∧
      confirms env k1 ∧ confirms env k2 ∧ confirms env k3 ∧
      (k2 + 1 = k1 → k3 + 1 = k2 →
        polledRegion env k2 = r.2.objDetected ∧ polledRegion env k3 = r.2.objDetected) := by
  have hinv := searchInv_loop env fuel
  have hge := search_outer_done env fuel _ _ r h
  rw [h] at hinv
  obtain ⟨_, h2, h3, h4, h5, h6⟩ := hinv
  simp only [Run.val] at h2 h3 h4 h5 h6
  have hsp : r.2.spotted = SPOTTED_THRESHOLD := by omega
  obtain ⟨n, hn, hf⟩ := h6 hsp
  have hl : freshPolls env (n + 1) = n :: freshPolls env n := by
    show (if polledFresh env n = true then n :: freshPolls env n else freshPolls env n) = _
    rw [if_pos hf]
  have hd : r.2.objDetected = polledRegion env n := by rw [h2, hn]; rfl
  rw [hsp, hn, hl] at h4 h5
  rw [hn, hl]
  simp only [SPOTTED_THRESHOLD, List.length_cons] at h4 h5
  match hL : freshPolls env n with
  | [] => rw [hL] at h4; simp at h4
  | [_] => rw [hL] at h4; simp at h4
  | k2 :: k3 :: rest =>
    rw [hL] at h5
    have c1 : confirms env n := h5 n (by simp)
    have c2 : confirms env k2 := h5 k2 (by simp)
    have c3 : confirms env k3 := h5 k3 (by simp)
    refine ⟨by rw [hd]; exact c1.1, n, k2, k3, rest, rfl, rfl, hd.symm, c1, c2, c3, ?_⟩
    intro e1 e2
    have a1 : polledRegion env k2 = polledRegion env n := by
      have := c1.2
      rw [← e1] at this ⊢
      exact this.symm
    have a2 : polledRegion env k3 = polledRegion env k2 := by
      have := c2.2
      rw [← e2] at this ⊢
      exact this.symm
    rw [hd]
    exact ⟨a1, a2.trans a1⟩

/-- C2 (amended) at a concrete input: four fresh sightings of region 1. -/
theorem search_handoff_confirmed_witness :
    search_loop envFourSightings 5
      = .done (⟨5, 4, 4, 0, 0, [.setSpeed 3 (-3)]⟩, ⟨1, 1, 3⟩) ∧
    ((1 : Int) ≠ 0 ∧
    ∃ k1 k2 k3 rest, freshPolls envFourSightings 4 = k1 :: k2 :: k3 :: rest ∧
      k1 + 1 = 4 ∧ polledRegion envFourSightings k1 = 1 ∧
      confirms envFourSightings k1 ∧ confirms envFourSightings k2 ∧
      confirms envFourSightings k3 ∧
      (k2 + 1 = k1 → k3 + 1 = k2 →
        polledRegion envFourSightings k2 = 1 ∧ polledRegion envFourSightings k3 = 1)) :=
  ⟨by decide, search_handoff_confirmed envFourSightings 5
    (⟨5, 4, 4, 0, 0, [.setSpeed 3 (-3)]⟩, ⟨1, 1, 3⟩) (by decide)⟩

/-- C2 as stated fails: with the polls 1 (stale), 1 (fresh), -1 (stale), -1 (fresh),
-1 (fresh) Search hands off direction -1, while its three most recent fresh samples
reported -1, -1 and 1. -/
theorem search_handoff_three_fresh_counterexample :
    search_loop envStaleBetween 6
      = .done (⟨6, 5, 5, 0, 0, [.setSpeed 3 (-3)]⟩, ⟨-1, -1, 3⟩) ∧
    ((freshPolls envStaleBetween 5).take 3).map (polledRegion envStaleBetween) = [-1, -1, 1] ∧
    ¬ (∀ x ∈ ((freshPolls envStaleBetween 5).take 3).map (polledRegion envStaleBetween),
        x = -1) := by
  decide

/-! ## routines_search step by step -/

theorem search_at_succ (env : Env) (n : Nat) :
    search_at env (n + 1) = search_step env (search_at env n) := rfl

theorem search_step_outer (env : Env) (s : St) (v : SearchVars) :
    search_step env ⟨.outerHead, s, v⟩
      = if v.spotted < SPOTTED_THRESHOLD then ⟨.innerHead, s, v⟩ else ⟨.handoff, s, v⟩ := rfl

theorem search_step_inner (env : Env) (s : St) (v : SearchVars) :
    search_step env ⟨.innerHead, s, v⟩
      = if env.touchingBounds s.nBounds = 0 ∧ v.spotted < SPOTTED_THRESHOLD then
          ⟨.innerHead, (search_body env s.readBounds v).1, (search_body env s.readBounds v).2⟩
        else ⟨.outerHead, search_flip env s.readBounds v, v⟩ := rfl

theorem search_step_handoff (env : Env) (s : St) (v : SearchVars) :
    search_step env ⟨.handoff, s, v⟩ = ⟨.handoff, s, v⟩ := rfl

/-- A property that holds at the start and is kept by the loop body (under the loop
condition), by a read of `qti_touchingBounds` and by the reversal of lines 94-98 holds
after every number of steps. -/
theorem search_at_inv (env : Env) (P : St → SearchVars → Prop)
    (hstart : P (search_start env St.init) ⟨0, 0, 0⟩)
    (hbody : ∀ s v, P s v → env.touchingBounds s.nBounds = 0 → v.spotted < SPOTTED_THRESHOLD →
      P (search_body env s.readBounds v).1 (search_body env s.readBounds v).2)
    (hread : ∀ s v, P s v → P s.readBounds v)
    (hflip : ∀ s v, P s v → P (search_flip env s v) v) :
    ∀ n, P (search_at env n).st (search_at env n).vars := by
  intro n
  induction n with
  | zero => exact hstart
  | succ n ih =>
    rw [search_at_succ]
    generalize search_at env n = c at ih ⊢
    obtain ⟨p, s, v⟩ := c
    cases p with
    | outerHead =>
      rw [search_step_outer]
      split_ifs <;> exact ih
    | innerHead =>
      rw [search_step_inner]
      split_ifs with hc
      · exact hbody s v ih hc.1 hc.2
      · exact hflip _ _ (hread s v ih)
    | handoff => exact ih

/-- The call of line 102 is reached only with the condition of line 67 false. -/
theorem search_at_handoff (env : Env) :
    ∀ n, (search_at env n).point = .handoff →
      ¬ (search_at env n).vars.spotted < SPOTTED_THRESHOLD := by
  intro n
  induction n with
  | zero => intro h; cases h
  | succ n ih =>
    rw [search_at_succ]
    generalize search_at env n = c at ih ⊢
    obtain ⟨p, s, v⟩ := c
    cases p with
    | outerHead =>
      rw [search_step_outer]
      split_ifs with hc
      · intro h; cases h
      · intro _; exact hc
    | innerHead =>
      rw [search_step_inner]
      split_ifs <;> (intro h; cases h)
    | handoff => exact ih

/-- Every state that the inner loop returns is a state of the step-by-step run. -/
theorem search_inner_at (env : Env) :
    ∀ (fuel n : Nat) (s : St) (v : SearchVars), search_at env n = ⟨.innerHead, s, v⟩ →
      (∀ r, search_inner env fuel s v = .more r →
        ∃ m, search_at env m = ⟨.innerHead, r.1, r.2⟩) ∧
      (∀ r, search_inner env fuel s v = .done r →
        ∃ m, search_at env m = ⟨.outerHead, search_flip env r.1 r.2, r.2⟩) := by
  intro fuel
  induction fuel with
  | zero =>
    intro n s v hn
    by_cases hc : env.touchingBounds s.nBounds = 0 ∧ v.spotted < SPOTTED_THRESHOLD
    · rw [search_inner_zero env s v hc]
      exact ⟨fun r h => (by cases h; exact ⟨n, hn⟩), fun r h => (by cases h)⟩
    · rw [search_inner_exit env 0 s v hc]
      refine ⟨fun r h => (by cases h), fun r h => ?_⟩
      cases h
      exact ⟨n + 1, by rw [search_at_succ, hn, search_step_inner, if_neg hc]⟩
  | succ k ih =>
    intro n s v hn
    by_cases hc : env.touchingBounds s.nBounds = 0 ∧ v.spotted < SPOTTED_THRESHOLD
    · rw [search_inner_succ env k s v hc]
      exact ih (n + 1) _ _ (by rw [search_at_succ, hn, search_step_inner, if_pos hc])
    · rw [search_inner_exit env (k + 1) s v hc]
      refine ⟨fun r h => (by cases h), fun r h => ?_⟩
      cases h
      exact ⟨n + 1, by rw [search_at_succ, hn, search_step_inner, if_neg hc]⟩

/-- Every state that the outer loop returns is a state of the step-by-step run, and the
state in which the loops are left is the state at the call of line 102. -/
theorem search_outer_at (env : Env) :
    ∀ (fuel n : Nat) (s : St) (v : SearchVars), search_at env n = ⟨.outerHead, s, v⟩ →
      (∀ r, search_outer env fuel s v = .more r →
        ∃ m p, search_at env m = ⟨p, r.1, r.2⟩) ∧
      (∀ r, search_outer env fuel s v = .done r →
        ∃ m, search_at env m = ⟨.handoff, r.1, r.2⟩) := by
  intro fuel
  induction fuel with
  | zero =>
    intro n s v hn
    by_cases hc : v.spotted < SPOTTED_THRESHOLD
    · rw [search_outer_zero env s v hc]
      exact ⟨fun r h => (by cases h; exact ⟨n, .outerHead, hn⟩), fun r h => (by cases h)⟩
    · rw [search_outer_exit env 0 s v hc]
      refine ⟨fun r h => (by cases h), fun r h => ?_⟩
      cases h
      exact ⟨n + 1, by rw [search_at_succ, hn, search_step_outer, if_neg hc]⟩
  | succ k ih =>
    intro n s v hn
    by_cases hc : v.spotted < SPOTTED_THRESHOLD
    · rw [search_outer_succ env k s v hc]
      have hin := search_inner_at env k (n + 1) s v
        (by rw [search_at_succ, hn, search_step_outer, if_pos hc])
      cases hr : search_inner env k s v with
      | more r1 =>
        refine ⟨fun r h => ?_, fun r h => (by cases h)⟩
        cases h
        obtain ⟨m, hm⟩ := hin.1 r1 hr
        exact ⟨m, .innerHead, hm⟩
      | done r1 =>
        obtain ⟨m, hm⟩ := hin.2 r1 hr
        exact ih m _ _ hm
    · rw [search_outer_exit env (k + 1) s v hc]
      refine ⟨fun r h => (by cases h), fun r h => ?_⟩
      cases h
      exact ⟨n + 1, by rw [search_at_succ, hn, search_step_outer, if_neg hc]⟩

/-- Every result of `search_loop` is a state of the step-by-step run. -/
theorem search_loop_at (env : Env) (fuel : Nat) :
    (∀ r, search_loop env fuel = .more r → ∃ m p, search_at env m = ⟨p, r.1, r.2⟩) ∧
    (∀ r, search_loop env fuel = .done r → ∃ m, search_at env m = ⟨.handoff, r.1, r.2⟩) :=
  search_outer_at env fuel 0 _ _ rfl

theorem search_flip_nRegion (env : Env) (s : St) (v : SearchVars) :
    (search_flip env s v).nRegion = s.nRegion ∧ (search_flip env s v).nNew = s.nNew := by
  unfold search_flip
  split_ifs
  · exact ⟨rfl, rfl⟩
  · exact ⟨rfl, rfl⟩

theorem searchInv_at (env : Env) (n : Nat) :
    SearchInv env (search_at env n).st (search_at env n).vars := by
  refine search_at_inv env (SearchInv env) ?_ ?_ ?_ ?_ n
  · unfold search_start
    split_ifs <;>
      simp [SearchInv, St.emit, St.init, regionBefore, freshPolls, SPOTTED_THRESHOLD]
  · intro s v h _ hlt
    exact searchInv_body env s v h hlt
  · intro s v h; exact h
  · intro s v h
    unfold search_flip
    split_ifs
    · exact h
    · exact h

/-! ## C3 -/

/-- C3 (amended): in every poll cycle of Search with a fresh sample (step `n` of a run is
at the head of the inner loop, the condition of line 71 holds and the sample polled is
fresh), whatever the polls and boundary contacts before it, `spotted` is incremented by
one if the newly read region is non-null and equals the region returned by the poll just
before it (fresh or stale, null before the first poll), and is reset to 0 otherwise. -/
theorem search_fresh_poll_step (env : Env) (n : Nat)
    (hpoint : (search_at env n).point = .innerHead)
    (hcond : env.touchingBounds (search_at env n).st.nBounds = 0 ∧
      (search_at env n).vars.spotted < SPOTTED_THRESHOLD)
    (hfresh : polledFresh env (search_at env n).st.nRegion = true) :
    (search_at env (n + 1)).point = .innerHead ∧
    (search_at env (n + 1)).st.nRegion = (search_at env n).st.nRegion + 1 ∧
    (search_at env (n + 1)).vars.objDetected
      = polledRegion env (search_at env n).st.nRegion ∧
    (search_at env (n + 1)).vars.spotted
      = if polledRegion env (search_at env n).st.nRegion ≠ 0 ∧
            polledRegion env (search_at env n).st.nRegion
              = regionBefore env (search_at env n).st.nRegion
        then (search_at env n).vars.spotted + 1 else 0 := by
  have hinv := searchInv_at env n
  rw [search_at_succ]
  generalize search_at env n = c at hpoint hcond hfresh hinv ⊢
  obtain ⟨p, s, v⟩ := c
  simp only at hpoint hcond hfresh hinv
  subst hpoint
  rw [search_step_inner, if_pos hcond]
  obtain ⟨h1, h2, _⟩ := hinv
  have e4 : (search_body env s.readBounds v).2.spotted
      = if env.isNewDist s.nNew (polledRegion env s.nRegion) = true then
          (if polledRegion env s.nRegion = v.objDetected ∧ polledRegion env s.nRegion ≠ 0
            then incU8 v.spotted else 0)
        else v.spotted := rfl
  have e6 : env.isNewDist s.nRegion (polledRegion env s.nRegion)
      = polledFresh env s.nRegion := rfl
  have hinc : incU8 v.spotted = v.spotted + 1 :=
    incU8_of_lt (by have := hcond.2; simp only [SPOTTED_THRESHOLD] at this; omega)
  refine ⟨rfl, rfl, rfl, ?_⟩
  show (search_body env s.readBounds v).2.spotted = _
  rw [e4, h1, e6, if_pos hfresh, hinc, h2]
  by_cases hc : polledRegion env s.nRegion = regionBefore env s.nRegion ∧
      polledRegion env s.nRegion ≠ 0
  · rw [if_pos hc, if_pos ⟨hc.2, hc.1⟩]
  · rw [if_neg hc, if_neg (fun hx => hc ⟨hx.2, hx.1⟩)]

/-- C3 (amended) at concrete inputs: after the polls 1 (fresh), -1 (stale), the fresh poll
-1 raises `spotted` from 0 to 1 (steps 3 and 4 of `envStaleSwitch`); and after three
sightings of region 1 and a boundary contact, the fresh poll -1 resets `spotted` from 2
to 0 (steps 6 and 7 of `envGap`). -/
theorem search_fresh_poll_step_witness :
    (search_at envStaleSwitch 3 = ⟨.innerHead, ⟨2, 2, 2, 0, 0, [.setSpeed 3 (-3)]⟩, ⟨-1, 1, 0⟩⟩ ∧
      (search_at envStaleSwitch 4).vars.spotted = 1) ∧
    (search_at envGap 6 = ⟨.innerHead, ⟨4, 3, 3, 0, 0, [.setSpeed 3 (-3)]⟩, ⟨1, 1, 2⟩⟩ ∧
      (search_at envGap 7).vars.spotted = 0) ∧
    ((search_at envStaleSwitch (3 + 1)).point = .innerHead ∧
    (search_at envStaleSwitch (3 + 1)).st.nRegion = (search_at envStaleSwitch 3).st.nRegion + 1 ∧
    (search_at envStaleSwitch (3 + 1)).vars.objDetected
      = polledRegion envStaleSwitch (search_at envStaleSwitch 3).st.nRegion ∧
    (search_at envStaleSwitch (3 + 1)).vars.spotted
      = if polledRegion envStaleSwitch (search_at envStaleSwitch 3).st.nRegion ≠ 0 ∧
            polledRegion envStaleSwitch (search_at envStaleSwitch 3).st.nRegion
              = regionBefore envStaleSwitch (search_at envStaleSwitch 3).st.nRegion
        then (search_at envStaleSwitch 3).vars.spotted + 1 else 0) ∧
    ((search_at envGap (6 + 1)).point = .innerHead ∧
    (search_at envGap (6 + 1)).st.nRegion = (search_at envGap 6).st.nRegion + 1 ∧
    (search_at envGap (6 + 1)).vars.objDetected
      = polledRegion envGap (search_at envGap 6).st.nRegion ∧
    (search_at envGap (6 + 1)).vars.spotted
      = if polledRegion envGap (search_at envGap 6).st.nRegion ≠ 0 ∧
            polledRegion envGap (search_at envGap 6).st.nRegion
              = regionBefore envGap (search_at envGap 6).st.nRegion
        then (search_at envGap 6).vars.spotted + 1 else 0) :=
  ⟨by decide, by decide,
    search_fresh_poll_step envStaleSwitch 3 (by decide) (by decide) (by decide),
    search_fresh_poll_step envGap 6 (by decide) (by decide) (by decide)⟩

/-- C3 as stated fails: after the polls 1 (fresh), -1 (stale), the next poll is fresh and
reports -1; the previous fresh sample reported 1, so the claim resets `spotted` to 0, but
the code compares with the stale -1 polled just before and counts: `spotted` becomes 1. -/
theorem search_fresh_poll_previous_fresh_counterexample :
    search_loop envStaleSwitch 3
      = .more (⟨2, 2, 2, 0, 0, [.setSpeed 3 (-3)]⟩, ⟨-1, 1, 0⟩) ∧
    polledFresh envStaleSwitch 2 = true ∧
    polledRegion envStaleSwitch 2 = -1 ∧
    lastFreshRegion envStaleSwitch 2 = 1 ∧
    (search_body envStaleSwitch (St.readBounds ⟨2, 2, 2, 0, 0, [.setSpeed 3 (-3)]⟩)
        ⟨-1, 1, 0⟩).2.spotted = 1 ∧
    (search_body envStaleSwitch (St.readBounds ⟨2, 2, 2, 0, 0, [.setSpeed 3 (-3)]⟩)
        ⟨-1, 1, 0⟩).2.spotted
      ≠ (if polledRegion envStaleSwitch 2 ≠ 0 ∧
            polledRegion envStaleSwitch 2 = lastFreshRegion envStaleSwitch 2
         then 0 + 1 else 0) := by
  decide

/-! ## C4 -/

/-- A positive value `k` of the specification's counter after `n` polls means that the
last `k + 1` polled regions are identical and non-null. -/
theorem spottedSpec_run (env : Env) :
    ∀ (n j : Nat), 0 < spottedSpec env n → j ≤ spottedSpec env n →
      j < n ∧ polledRegion env (n - 1 - j) = regionBefore env n ∧ regionBefore env n ≠ 0 := by
  intro n
  induction n with
  | zero => intro j h; simp [spottedSpec] at h
  | succ n ih =>
    intro j hpos hj
    have e : spottedSpec env (n + 1)
        = if polledRegion env n = 0 ∨ polledRegion env n ≠ regionBefore env n then 0
          else spottedSpec env n + 1 := rfl
    by_cases hc : polledRegion env n = 0 ∨ polledRegion env n ≠ regionBefore env n
    · rw [e, if_pos hc] at hpos; omega
    · rw [e, if_neg hc] at hj
      have hne : polledRegion env n ≠ 0 := fun hx => hc (Or.inl hx)
      have heq : polledRegion env n = regionBefore env n := by
        by_contra hx; exact hc (Or.inr hx)
      have e7 : regionBefore env (n + 1) = polledRegion env n := rfl
      rw [e7]
      cases j with
      | zero => exact ⟨by omega, by simp, hne⟩
      | succ i =>
        have hn : 0 < n := by
          rcases Nat.eq_zero_or_pos n with h0 | h0
          · subst h0
            exact absurd heq hne
          · exact h0
        by_cases hs : 0 < spottedSpec env n
        · obtain ⟨a, b, _⟩ := ih i hs (by omega)
          refine ⟨by omega, ?_, hne⟩
          have : n + 1 - 1 - (i + 1) = n - 1 - i := by omega
          rw [this, b, heq]
        · have hi : i = 0 := by omega
          subst hi
          refine ⟨by omega, ?_, hne⟩
          obtain ⟨m, rfl⟩ : ∃ m, n = m + 1 := ⟨n - 1, by omega⟩
          have : m + 1 + 1 - 1 - (0 + 1) = m := by omega
          rw [this, heq]
          rfl

theorem freshInv_body (env : Env) (hfresh : ∀ k d, env.isNewDist k d = true)
    (s : St) (v : SearchVars) (h : FreshInv env s v)
    (hlt : v.spotted < SPOTTED_THRESHOLD) :
    FreshInv env (search_body env s.readBounds v).1 (search_body env s.readBounds v).2 := by
  obtain ⟨h1, h2, h3⟩ := h
  have e4 : (search_body env s.readBounds v).2.spotted
      = if env.isNewDist s.nNew (polledRegion env s.nRegion) = true then
          (if polledRegion env s.nRegion = v.objDetected ∧ polledRegion env s.nRegion ≠ 0
            then incU8 v.spotted else 0)
        else v.spotted := rfl
  have e : spottedSpec env (s.nRegion + 1)
      = if polledRegion env s.nRegion = 0 ∨
            polledRegion env s.nRegion ≠ regionBefore env s.nRegion then 0
        else spottedSpec env s.nRegion + 1 := rfl
  have hinc : incU8 v.spotted = v.spotted + 1 :=
    incU8_of_lt (by simp only [SPOTTED_THRESHOLD] at hlt; omega)
  refine ⟨by show s.nNew + 1 = s.nRegion + 1; rw [h1], rfl, ?_⟩
  show (search_body env s.readBounds v).2.spotted = spottedSpec env (s.nRegion + 1)
  rw [e4, e, if_pos (hfresh _ _), hinc, h2, h3]
  by_cases hc : polledRegion env s.nRegion = 0 ∨
      polledRegion env s.nRegion ≠ regionBefore env s.nRegion
  · rw [if_pos hc, if_neg]
    rintro ⟨a, b⟩
    rcases hc with hc | hc
    · exact b hc
    · exact hc a
  · rw [if_neg hc, if_pos]
    constructor
    · by_contra hx; exact hc (Or.inr hx)
    · intro hx; exact hc (Or.inl hx)

theorem freshInv_loop (env : Env) (hfresh : ∀ k d, env.isNewDist k d = true) (fuel : Nat) :
    FreshInv env (search_loop env fuel).val.1 (search_loop env fuel).val.2 := by
  unfold search_loop
  refine search_outer_inv env (FreshInv env) ?_ ?_ ?_ fuel _ _ ?_
  · intro s v h _ hlt
    exact freshInv_body env hfresh s v h hlt
  · intro s v h; exact h
  · intro s v h
    unfold search_flip
    split_ifs
    · exact h
    · exact h
  · unfold search_start
    split_ifs <;> simp [FreshInv, St.emit, St.init, regionBefore, spottedSpec]

/-- Without boundary contact the inner loop, when interrupted, has polled exactly as many
times as its budget. -/
theorem search_inner_polls (env : Env) (hb : ∀ k, env.touchingBounds k = 0) :
    ∀ (fuel : Nat) (s : St) (v : SearchVars) (r : St × SearchVars),
      (search_inner env fuel s v = .more r → r.1.nRegion = s.nRegion + fuel) ∧
      (search_inner env fuel s v = .done r → ¬ r.2.spotted < SPOTTED_THRESHOLD) := by
  intro fuel
  induction fuel with
  | zero =>
    intro s v r
    by_cases hc : env.touchingBounds s.nBounds = 0 ∧ v.spotted < SPOTTED_THRESHOLD
    · rw [search_inner_zero env s v hc]
      exact ⟨fun h => (by cases h; rfl), fun h => (by cases h)⟩
    · rw [search_inner_exit env 0 s v hc]
      exact ⟨fun h => (by cases h), fun h => (by cases h; exact fun hx => hc ⟨hb _, hx⟩)⟩
  | succ n ih =>
    intro s v r
    by_cases hc : env.touchingBounds s.nBounds = 0 ∧ v.spotted < SPOTTED_THRESHOLD
    · rw [search_inner_succ env n s v hc]
      obtain ⟨a, b⟩ := ih (search_body env s.readBounds v).1 (search_body env s.readBounds v).2 r
      refine ⟨fun h => ?_, b⟩
      have := a h
      have e2 : (search_body env s.readBounds v).1.nRegion = s.nRegion + 1 := rfl
      rw [this, e2]; omega
    · rw [search_inner_exit env (n + 1) s v hc]
      exact ⟨fun h => (by cases h), fun h => (by cases h; exact fun hx => hc ⟨hb _, hx⟩)⟩

/-- C4: when every sample is fresh, `spotted` after the polls made so far is the counter of
the specification (0 if the latest region is null or differs from the region polled just
before it, one more than its previous value otherwise), so a value `k > 0` means that the
last `k + 1` polled regions are identical and non-null; without boundary contact a run
interrupted with a budget of `fuel + 1` has made exactly `fuel` polls, so this covers the
state after each poll. -/
theorem search_all_fresh_spotted (env : Env) (hfresh : ∀ k d, env.isNewDist k d = true)
    (fuel : Nat) :
    (search_loop env fuel).val.2.spotted
      = spottedSpec env (search_loop env fuel).val.1.nRegion ∧
    (∀ n, spottedSpec env (n + 1)
      = if polledRegion env n = 0 ∨ polledRegion env n ≠ regionBefore env n then 0
        else spottedSpec env n + 1) ∧
    (0 < (search_loop env fuel).val.2.spotted →
      ∀ j, j ≤ (search_loop env fuel).val.2.spotted →
        j < (search_loop env fuel).val.1.nRegion ∧
        polledRegion env ((search_loop env fuel).val.1.nRegion - 1 - j)
          = (search_loop env fuel).val.2.objDetected ∧
        (search_loop env fuel).val.2.objDetected ≠ 0) ∧
    ((∀ k, env.touchingBounds k = 0) → (search_loop env (fuel + 1)).isDone = false →
      (search_loop env (fuel + 1)).val.1.nRegion = fuel) := by
  obtain ⟨h1, h2, h3⟩ := freshInv_loop env hfresh fuel
  refine ⟨h3, fun _ => rfl, ?_, ?_⟩
  · intro hpos j hj
    rw [h3] at hpos hj
    rw [h2]
    exact spottedSpec_run env _ j hpos hj
  · intro hb hnd
    unfold search_loop at hnd ⊢
    have hstart : (search_start env St.init).nRegion = 0 := by
      unfold search_start; split_ifs <;> rfl
    rw [search_outer_succ env fuel _ _ (by simp [SPOTTED_THRESHOLD])] at hnd ⊢
    cases hr : search_inner env fuel (search_start env St.init) ⟨0, 0, 0⟩ with
    | more r =>
      have := (search_inner_polls env hb fuel _ _ r).1 hr
      simp only [Run.val]
      rw [this, hstart]; omega
    | done r =>
      rw [hr] at hnd
      have hx := (search_inner_polls env hb fuel _ _ r).2 hr
      have hflip : search_outer env fuel (search_flip env r.1 r.2) r.2
          = .done (search_flip env r.1 r.2, r.2) := search_outer_exit env fuel _ _ hx
      simp only [hflip, Run.isDone] at hnd
      cases hnd

/-- C4 at a concrete input: fresh polls 1, 1, 1, 0, -1, ...; with a budget of 4, after 3 polls, `spotted = 2`
and the last three regions are 1; after the null fourth poll `spotted = 0`. -/
theorem search_all_fresh_spotted_witness :
    (search_loop envMixedFresh 4).val.2.spotted = 2 ∧
    (search_loop envMixedFresh 5).val.2.spotted = 0 ∧
    ((search_loop envMixedFresh 4).val.2.spotted
      = spottedSpec envMixedFresh (search_loop envMixedFresh 4).val.1.nRegion ∧
    (∀ n, spottedSpec envMixedFresh (n + 1)
      = if polledRegion envMixedFresh n = 0 ∨
            polledRegion envMixedFresh n ≠ regionBefore envMixedFresh n then 0
        else spottedSpec envMixedFresh n + 1) ∧
    (0 < (search_loop envMixedFresh 4).val.2.spotted →
      ∀ j, j ≤ (search_loop envMixedFresh 4).val.2.spotted →
        j < (search_loop envMixedFresh 4).val.1.nRegion ∧
        polledRegion envMixedFresh ((search_loop envMixedFresh 4).val.1.nRegion - 1 - j)
          = (search_loop envMixedFresh 4).val.2.objDetected ∧
        (search_loop envMixedFresh 4).val.2.objDetected ≠ 0) ∧
    ((∀ k, envMixedFresh.touchingBounds k = 0) →
      (search_loop envMixedFresh (4 + 1)).isDone = false →
      (search_loop envMixedFresh (4 + 1)).val.1.nRegion = 4)) :=
  ⟨by decide, by decide, search_all_fresh_spotted envMixedFresh (fun _ _ => rfl) 4⟩

/-! ## C5 -/

/-- C5, the code on its failing input: Search polls region 1 once (`spotted` stays 0) and
then reads boundary contact.  The inner loop is left with `spotted = 0 < 3` because of the
contact, but since `objDetected` is 1 the test of line 94 fails and no `motor_setSpeed` is
issued: while the contact lasts the only drive command is the initial one.  (In
`envEdgeNoSighting`, where the polled region is null, the same contact is answered by the
negated speeds.) -/
theorem search_contact_with_sighting_no_reversal :
    search_inner envSightingAtEdge 1 (search_start envSightingAtEdge St.init) ⟨0, 0, 0⟩
      = .done (⟨2, 1, 1, 0, 0, [.setSpeed 3 (-3)]⟩, ⟨1, 0, 0⟩) ∧
    envSightingAtEdge.touchingBounds 1 = 1 ∧
    search_flip envSightingAtEdge ⟨2, 1, 1, 0, 0, [.setSpeed 3 (-3)]⟩ ⟨1, 0, 0⟩
      = ⟨2, 1, 1, 0, 0, [.setSpeed 3 (-3)]⟩ ∧
    search_loop envSightingAtEdge 5
      = .more (⟨5, 1, 1, 0, 0, [.setSpeed 3 (-3)]⟩, ⟨1, 0, 0⟩) ∧
    search_loop envEdgeNoSighting 2
      = .more (⟨2, 1, 1, 1, 0, [.setSpeed 3 (-3), .setSpeed (-3) 3]⟩, ⟨0, 0, 0⟩) := by
  decide

/-! ## Unfolding the Attack loop -/

theorem attack_loop_exit (env : Env) (d : Int) (fuel : Nat) (s : St) (v : AttackVars)
    (h : ¬ (v.missCounter < MAX_TRACKING_MISSES ∧ v.boundCounter < MAX_TRACKING_BOUNDS)) :
    attack_loop env d fuel s v = .done (s, v) := by
  cases fuel <;> simp [attack_loop, h]

theorem attack_loop_zero (env : Env) (d : Int) (s : St) (v : AttackVars)
    (h : v.missCounter < MAX_TRACKING_MISSES ∧ v.boundCounter < MAX_TRACKING_BOUNDS) :
    attack_loop env d 0 s v = .more (s, v) := by
  simp [attack_loop, h]

theorem attack_loop_succ (env : Env) (d : Int) (n : Nat) (s : St) (v : AttackVars)
    (h : v.missCounter < MAX_TRACKING_MISSES ∧ v.boundCounter < MAX_TRACKING_BOUNDS) :
    attack_loop env d (n + 1) s v
      = attack_loop env d n (attack_body env d s v).1 (attack_body env d s v).2 := by
  simp [attack_loop, h]

/-- A property kept by the loop body under the loop condition holds in whatever state the
Attack loop is left or interrupted. -/
theorem attack_loop_inv (env : Env) (d : Int) (P : St → AttackVars → Prop)
    (hbody : ∀ s v, P s v → v.missCounter < MAX_TRACKING_MISSES →
      v.boundCounter < MAX_TRACKING_BOUNDS →
      P (attack_body env d s v).1 (attack_body env d s v).2) :
    ∀ (fuel : Nat) (s : St) (v : AttackVars), P s v →
      P (attack_loop env d fuel s v).val.1 (attack_loop env d fuel s v).val.2 := by
  intro fuel
  induction fuel with
  | zero =>
    intro s v h
    by_cases hc : v.missCounter < MAX_TRACKING_MISSES ∧ v.boundCounter < MAX_TRACKING_BOUNDS
    · rw [attack_loop_zero env d s v hc]; exact h
    · rw [attack_loop_exit env d 0 s v hc]; exact h
  | succ n ih =>
    intro s v h
    by_cases hc : v.missCounter < MAX_TRACKING_MISSES ∧ v.boundCounter < MAX_TRACKING_BOUNDS
    · rw [attack_loop_succ env d n s v hc]
      exact ih _ _ (hbody s v h hc.1 hc.2)
    · rw [attack_loop_exit env d (n + 1) s v hc]; exact h

/-- The loop is left only when its condition fails, and runs only while it holds. -/
theorem attack_loop_cond (env : Env) (d : Int) :
    ∀ (fuel : Nat) (s : St) (v : AttackVars) (r : St × AttackVars),
      (attack_loop env d fuel s v = .done r →
        ¬ (r.2.missCounter < MAX_TRACKING_MISSES ∧ r.2.boundCounter < MAX_TRACKING_BOUNDS)) ∧
      (attack_loop env d fuel s v = .more r →
        r.2.missCounter < MAX_TRACKING_MISSES ∧ r.2.boundCounter < MAX_TRACKING_BOUNDS) := by
  intro fuel
  induction fuel with
  | zero =>
    intro s v r
    by_cases hc : v.missCounter < MAX_TRACKING_MISSES ∧ v.boundCounter < MAX_TRACKING_BOUNDS
    · rw [attack_loop_zero env d s v hc]
      exact ⟨fun h => (by cases h), fun h => (by cases h; exact hc)⟩
    · rw [attack_loop_exit env d 0 s v hc]
      exact ⟨fun h => (by cases h; exact hc), fun h => (by cases h)⟩
  | succ n ih =>
    intro s v r
    by_cases hc : v.missCounter < MAX_TRACKING_MISSES ∧ v.boundCounter < MAX_TRACKING_BOUNDS
    · rw [attack_loop_succ env d n s v hc]
      exact ih _ _ r
    · rw [attack_loop_exit env d (n + 1) s v hc]
      exact ⟨fun h => (by cases h; exact hc), fun h => (by cases h)⟩

/-- The counters of Attack never exceed their thresholds. -/
theorem attack_loop_counters_le (env : Env) (d : Int) (fuel : Nat) (s : St) (v : AttackVars)
    (h : v.missCounter ≤ MAX_TRACKING_MISSES ∧ v.boundCounter ≤ MAX_TRACKING_BOUNDS) :
    (attack_loop env d fuel s v).val.2.missCounter ≤ MAX_TRACKING_MISSES ∧
    (attack_loop env d fuel s v).val.2.boundCounter ≤ MAX_TRACKING_BOUNDS := by
  refine attack_loop_inv env d
    (fun _ v => v.missCounter ≤ MAX_TRACKING_MISSES ∧ v.boundCounter ≤ MAX_TRACKING_BOUNDS)
    ?_ fuel s v h
  intro s v _ hm hb
  simp only [attack_body, MAX_TRACKING_MISSES, MAX_TRACKING_BOUNDS, incU8] at *
  constructor <;> split_ifs <;> omega

/-- A loop still running after `fuel` cycles runs one more cycle and is left right after it
exactly when a counter reached its threshold. -/
theorem attack_loop_next (env : Env) (d : Int) :
    ∀ (fuel : Nat) (s : St) (v : AttackVars) (r : St × AttackVars),
      attack_loop env d fuel s v = .more r →
      attack_loop env d (fuel + 1) s v
        = if (attack_body env d r.1 r.2).2.missCounter < MAX_TRACKING_MISSES ∧
              (attack_body env d r.1 r.2).2.boundCounter < MAX_TRACKING_BOUNDS
          then .more (attack_body env d r.1 r.2) else .done (attack_body env d r.1 r.2) := by
  intro fuel
  induction fuel with
  | zero =>
    intro s v r h
    by_cases hc : v.missCounter < MAX_TRACKING_MISSES ∧ v.boundCounter < MAX_TRACKING_BOUNDS
    · rw [attack_loop_zero env d s v hc] at h
      cases h
      rw [attack_loop_succ env d 0 s v hc]
      by_cases hn : (attack_body env d s v).2.missCounter < MAX_TRACKING_MISSES ∧
          (attack_body env d s v).2.boundCounter < MAX_TRACKING_BOUNDS
      · rw [attack_loop_zero env d _ _ hn, if_pos hn]
      · rw [attack_loop_exit env d 0 _ _ hn, if_neg hn]
    · rw [attack_loop_exit env d 0 s v hc] at h; cases h
  | succ n ih =>
    intro s v r h
    by_cases hc : v.missCounter < MAX_TRACKING_MISSES ∧ v.boundCounter < MAX_TRACKING_BOUNDS
    · rw [attack_loop_succ env d n s v hc] at h
      rw [attack_loop_succ env d (n + 1) s v hc]
      exact ih _ _ r h
    · rw [attack_loop_exit env d (n + 1) s v hc] at h; cases h

/-- Once left, the loop stays left in the same state whatever budget is added. -/
theorem attack_loop_done_mono (env : Env) (d : Int) :
    ∀ (fuel : Nat) (s : St) (v : AttackVars) (r : St × AttackVars) (m : Nat),
      attack_loop env d fuel s v = .done r → fuel ≤ m →
      attack_loop env d m s v = .done r := by
  intro fuel
  induction fuel with
  | zero =>
    intro s v r m h _
    by_cases hc : v.missCounter < MAX_TRACKING_MISSES ∧ v.boundCounter < MAX_TRACKING_BOUNDS
    · rw [attack_loop_zero env d s v hc] at h; cases h
    · rw [attack_loop_exit env d 0 s v hc] at h
      rw [attack_loop_exit env d m s v hc]; exact h
  | succ n ih =>
    intro s v r m h hm
    by_cases hc : v.missCounter < MAX_TRACKING_MISSES ∧ v.boundCounter < MAX_TRACKING_BOUNDS
    · rw [attack_loop_succ env d n s v hc] at h
      obtain ⟨k, rfl⟩ : ∃ k, m = k + 1 := ⟨m - 1, by omega⟩
      rw [attack_loop_succ env d k s v hc]
      exact ih _ _ r k h (by omega)
    · rw [attack_loop_exit env d (n + 1) s v hc] at h
      rw [attack_loop_exit env d m s v hc]; exact h

/-! ## C6 -/

/-- C6: the loop of `routines_attack`, started with both counters 0, is still running after
`fuel` cycles only with `missCounter < 8` and `boundCounter < 2`, and then runs one more
cycle, after which it is left exactly when a counter reached its threshold; when it is left,
`missCounter = 8` or `boundCounter = 2`, and it stays left in that state. -/
theorem attack_loop_runs_while_below (env : Env) (d : Int) (fuel : Nat) (s : St) :
    MAX_TRACKING_MISSES = 8 ∧ MAX_TRACKING_BOUNDS = 2 ∧
    (∀ r, attack_loop env d fuel s ⟨0, 0⟩ = .more r →
      (r.2.missCounter < MAX_TRACKING_MISSES ∧ r.2.boundCounter < MAX_TRACKING_BOUNDS) ∧
      attack_loop env d (fuel + 1) s ⟨0, 0⟩
        = if (attack_body env d r.1 r.2).2.missCounter < MAX_TRACKING_MISSES ∧
              (attack_body env d r.1 r.2).2.boundCounter < MAX_TRACKING_BOUNDS
          then .more (attack_body env d r.1 r.2) else .done (attack_body env d r.1 r.2)) ∧
    (∀ r, attack_loop env d fuel s ⟨0, 0⟩ = .done r →
      (r.2.missCounter = MAX_TRACKING_MISSES ∨ r.2.boundCounter = MAX_TRACKING_BOUNDS) ∧
      ∀ m, fuel ≤ m → attack_loop env d m s ⟨0, 0⟩ = .done r) := by
  refine ⟨rfl, rfl, ?_, ?_⟩
  · intro r h
    exact ⟨(attack_loop_cond env d fuel s _ r).2 h, attack_loop_next env d fuel s _ r h⟩
  · intro r h
    have hc := (attack_loop_cond env d fuel s _ r).1 h
    have hle := attack_loop_counters_le env d fuel s ⟨0, 0⟩
      (by simp [MAX_TRACKING_MISSES, MAX_TRACKING_BOUNDS])
    rw [h] at hle
    simp only [Run.val, MAX_TRACKING_MISSES, MAX_TRACKING_BOUNDS] at hle hc ⊢
    refine ⟨by omega, fun m hm => attack_loop_done_mono env d fuel s _ r m h hm⟩

/-- C6 at a concrete input: with boundary contact on two consecutive cycles the loop is
still running after one cycle, with counters (0, 1), and is left after the second, with
counters (0, 2). -/
theorem attack_loop_runs_while_below_witness :
    attack_loop envTwoContacts 1 1 St.init ⟨0, 0⟩ = .more (⟨1, 1, 1, 0, 0, []⟩, ⟨0, 1⟩) ∧
    attack_loop envTwoContacts 1 2 St.init ⟨0, 0⟩ = .done (⟨2, 2, 2, 0, 0, []⟩, ⟨0, 2⟩) ∧
    attack_loop envTwoContacts 1 (1 + 1) St.init ⟨0, 0⟩
      = (if (attack_body envTwoContacts 1 (⟨1, 1, 1, 0, 0, []⟩ : St) ⟨0, 1⟩).2.missCounter
              < MAX_TRACKING_MISSES ∧
            (attack_body envTwoContacts 1 (⟨1, 1, 1, 0, 0, []⟩ : St) ⟨0, 1⟩).2.boundCounter
              < MAX_TRACKING_BOUNDS
         then .more (attack_body envTwoContacts 1 (⟨1, 1, 1, 0, 0, []⟩ : St) ⟨0, 1⟩)
         else .done (attack_body envTwoContacts 1 (⟨1, 1, 1, 0, 0, []⟩ : St) ⟨0, 1⟩)) ∧
    ((0 : Nat) = MAX_TRACKING_MISSES ∨ (2 : Nat) = MAX_TRACKING_BOUNDS) :=
  ⟨by decide, by decide,
    ((attack_loop_runs_while_below envTwoContacts 1 1 St.init).2.2.1
      (⟨1, 1, 1, 0, 0, []⟩, ⟨0, 1⟩) (by decide)).2,
    ((attack_loop_runs_while_below envTwoContacts 1 2 St.init).2.2.2
      (⟨2, 2, 2, 0, 0, []⟩, ⟨0, 2⟩) (by decide)).1⟩

/-! ## C7 -/

theorem attack_body_miss (env : Env) (d : Int) (s : St) (v : AttackVars) :
    (attack_body env d s v).2.missCounter
      = if env.isNewDist s.nNew d = true then
          (if env.getRegion (s.nRegion + 1) ≠ d then incU8 v.missCounter else 0)
        else v.missCounter := rfl

theorem attack_body_bound (env : Env) (d : Int) (s : St) (v : AttackVars) :
    (attack_body env d s v).2.boundCounter
      = if env.touchingBounds s.nBounds ≠ 0 then incU8 v.boundCounter else 0 := by
  unfold attack_body
  by_cases hf : env.isNewDist s.readRegion.nNew d = true
  · simp only [hf, if_true]; rfl
  · simp only [hf]; rfl

theorem attack_body_state (env : Env) (d : Int) (s : St) (v : AttackVars) :
    (attack_body env d s v).1
      = ⟨s.nBounds + 1, (if env.isNewDist s.nNew d = true then s.nRegion + 2 else s.nRegion + 1),
          s.nNew + 1, s.nSpeed, s.nDist, s.log⟩ := by
  unfold attack_body
  by_cases hf : env.isNewDist s.readRegion.nNew d = true
  · have hf2 : env.isNewDist s.nNew d = true := hf
    simp only [hf, hf2, if_true]; rfl
  · have hf2 : ¬ env.isNewDist s.nNew d = true := hf
    simp only [hf, hf2]; rfl

/-- C7: in one cycle of the Attack loop (entered with `missCounter < 8`,
`boundCounter < 2`), on a fresh sample `missCounter` becomes `missCounter + 1` if the
region returned by the second `sonar_getRegion()` of the cycle differs from the charging
direction and 0 if it equals it; `boundCounter` becomes `boundCounter + 1` on boundary
contact and 0 otherwise; the new `missCounter` is the same under any other boundary
readings and the new `boundCounter` the same under any other proximity readings. -/
theorem attack_body_counters (env : Env) (d : Int) (s : St) (v : AttackVars)
    (hm : v.missCounter < MAX_TRACKING_MISSES) (hb : v.boundCounter < MAX_TRACKING_BOUNDS) :
    (env.isNewDist s.nNew d = true →
      (attack_body env d s v).2.missCounter
        = if env.getRegion (s.nRegion + 1) ≠ d then v.missCounter + 1 else 0) ∧
    ((attack_body env d s v).2.boundCounter
      = if env.touchingBounds s.nBounds ≠ 0 then v.boundCounter + 1 else 0) ∧
    (∀ env2 : Env, env2.getRegion = env.getRegion → env2.isNewDist = env.isNewDist →
      (attack_body env2 d s v).2.missCounter = (attack_body env d s v).2.missCounter) ∧
    (∀ env2 : Env, env2.touchingBounds = env.touchingBounds →
      (attack_body env2 d s v).2.boundCounter = (attack_body env d s v).2.boundCounter) := by
  have h1 : incU8 v.missCounter = v.missCounter + 1 :=
    incU8_of_lt (by simp only [MAX_TRACKING_MISSES] at hm; omega)
  have h2 : incU8 v.boundCounter = v.boundCounter + 1 :=
    incU8_of_lt (by simp only [MAX_TRACKING_BOUNDS] at hb; omega)
  refine ⟨?_, ?_, ?_, ?_⟩
  · intro hf
    rw [attack_body_miss, if_pos hf, h1]
  · rw [attack_body_bound, h2]
  · intro env2 e1 e2
    rw [attack_body_miss, attack_body_miss, e1, e2]
  · intro env2 e1
    rw [attack_body_bound, attack_body_bound, e1]

/-- C7 at a concrete input: a fresh sample reporting -1 while charging towards 1, without
boundary contact, gives the counters (1, 0). -/
theorem attack_body_counters_witness :
    (attack_body envMissAndContact 1 St.init ⟨0, 0⟩).2 = ⟨1, 0⟩ ∧
    ((envMissAndContact.isNewDist St.init.nNew 1 = true →
      (attack_body envMissAndContact 1 St.init ⟨0, 0⟩).2.missCounter
        = if envMissAndContact.getRegion (St.init.nRegion + 1) ≠ 1 then 0 + 1 else 0) ∧
    ((attack_body envMissAndContact 1 St.init ⟨0, 0⟩).2.boundCounter
      = if envMissAndContact.touchingBounds St.init.nBounds ≠ 0 then 0 + 1 else 0) ∧
    (∀ env2 : Env, env2.getRegion = envMissAndContact.getRegion →
      env2.isNewDist = envMissAndContact.isNewDist →
      (attack_body env2 1 St.init ⟨0, 0⟩).2.missCounter
        = (attack_body envMissAndContact 1 St.init ⟨0, 0⟩).2.missCounter) ∧
    (∀ env2 : Env, env2.touchingBounds = envMissAndContact.touchingBounds →
      (attack_body env2 1 St.init ⟨0, 0⟩).2.boundCounter
        = (attack_body envMissAndContact 1 St.init ⟨0, 0⟩).2.boundCounter)) :=
  ⟨by decide, attack_body_counters envMissAndContact 1 St.init ⟨0, 0⟩ (by decide) (by decide)⟩

/-! ## The end of an Attack episode -/

theorem attack_loop_log (env : Env) (d : Int) (fuel : Nat) (s : St) (v : AttackVars) :
    (attack_loop env d fuel s v).val.1.log = s.log := by
  refine attack_loop_inv env d (fun s1 _ => s1.log = s.log) ?_ fuel s v rfl
  intro s1 v1 h _ _
  rw [attack_body_state]
  exact h

theorem routines_victoryBack_log (a : Int) (s : St) :
    (routines_victoryBack a s).log
      = s.log ++ [.setSpeed (3 * a) (3 * a), .greenSet 1,
          .delay_us 5, .beep, .delay_us 5, .beep, .delay_us 5, .beep,
          .delay_us 5, .beep, .delay_us 5, .beep, .greenSet 0] := by
  simp [routines_victoryBack, backup_loop, BACKUP_COUNT, St.emit, St.readRegion]

theorem routines_spin_log (env : Env) (a : Int) (s : St) :
    (routines_spin env a s).log
      = s.log ++ [(if env.dirTurn = -1 then .setSpeed (-a) (3 * a)
            else .setSpeed (3 * a) (-a)),
          .delay_us 5, .delay_us 5, .delay_us 5, .delay_us 5, .delay_us 5] := by
  by_cases h : env.dirTurn = -1 <;>
    simp [routines_spin, spin_loop, SPINOFF_COUNT, St.emit, St.readDist, h]

theorem maneuverCalls_append (l1 l2 : List Event) :
    maneuverCalls (l1 ++ l2) = maneuverCalls l1 ++ maneuverCalls l2 := by
  simp [maneuverCalls]

theorem wrap8_neg_unit (d : Int) (hd : d = 1 ∨ d = -1) : wrap8 (-d) = -d := by
  rcases hd with h | h <;> subst h <;> decide

theorem routines_attack_done (env : Env) (d : Int) (fuel : Nat) (s : St)
    (r : St × AttackVars)
    (h : attack_loop env d fuel (s.emit (.setSpeed (3 * d) (3 * d))) ⟨0, 0⟩ = .done r) :
    routines_attack env d fuel s = .done (attack_exit env d r.1) := by
  simp [routines_attack, h]

/-- Two cycles with boundary contact and with every region read equal to the charging
direction end the loop through `boundCounter`. -/
theorem attack_loop_two_contacts (env : Env) (d b : Int) (fuel : Nat) (s : St) (hb0 : b ≠ 0)
    (hb : ∀ k, k < 2 → env.touchingBounds (s.nBounds + k) = b)
    (hr : ∀ k, env.getRegion k = d) :
    ∃ r, attack_loop env d (fuel + 2) s ⟨0, 0⟩ = .done r ∧
      r.1.nBounds = s.nBounds + 2 ∧ r.2 = ⟨0, 2⟩ := by
  have hmiss : ∀ (s1 : St) (c : Nat), (attack_body env d s1 ⟨0, c⟩).2.missCounter = 0 := by
    intro s1 c
    rw [attack_body_miss, hr]
    simp
  have hbnd1 : (attack_body env d s ⟨0, 0⟩).2.boundCounter = 1 := by
    rw [attack_body_bound]
    have := hb 0 (by omega)
    rw [Nat.add_zero] at this
    rw [this, if_pos hb0]; rfl
  have hv1 : (attack_body env d s ⟨0, 0⟩).2 = ⟨0, 1⟩ := by
    show (⟨(attack_body env d s ⟨0, 0⟩).2.missCounter,
      (attack_body env d s ⟨0, 0⟩).2.boundCounter⟩ : AttackVars) = _
    rw [hmiss, hbnd1]
  have hs1 : (attack_body env d s ⟨0, 0⟩).1.nBounds = s.nBounds + 1 := by
    rw [attack_body_state]
  have hbnd2 : (attack_body env d (attack_body env d s ⟨0, 0⟩).1 ⟨0, 1⟩).2.boundCounter = 2 := by
    rw [attack_body_bound, hs1, hb 1 (by omega), if_pos hb0]; rfl
  have hv2 : (attack_body env d (attack_body env d s ⟨0, 0⟩).1 ⟨0, 1⟩).2 = ⟨0, 2⟩ := by
    show (⟨(attack_body env d (attack_body env d s ⟨0, 0⟩).1 ⟨0, 1⟩).2.missCounter,
      (attack_body env d (attack_body env d s ⟨0, 0⟩).1 ⟨0, 1⟩).2.boundCounter⟩
        : AttackVars) = _
    rw [hmiss, hbnd2]
  refine ⟨((attack_body env d (attack_body env d s ⟨0, 0⟩).1 ⟨0, 1⟩).1, ⟨0, 2⟩), ?_, ?_, rfl⟩
  · rw [attack_loop_succ env d (fuel + 1) s _
        (by simp [MAX_TRACKING_MISSES, MAX_TRACKING_BOUNDS]), hv1,
      attack_loop_succ env d fuel _ _
        (by simp [MAX_TRACKING_MISSES, MAX_TRACKING_BOUNDS]), hv2,
      attack_loop_exit env d fuel _ _
        (by simp [MAX_TRACKING_MISSES, MAX_TRACKING_BOUNDS])]
  · show (attack_body env d (attack_body env d s ⟨0, 0⟩).1 ⟨0, 1⟩).1.nBounds = _
    rw [attack_body_state, attack_body_state]

theorem attack_exit_charging_side (env : Env) (d : Int) (s : St) (hd : d = 1 ∨ d = -1)
    (h1 : env.touchingBounds s.nBounds = d) (h2 : env.touchingBounds (s.nBounds + 1) = d) :
    attack_exit env d s
      = routines_victoryBack (-d) ((s.readBounds.readBounds).emit (.call_victoryBack (-d))) := by
  have hd0 : d ≠ 0 := by rcases hd with h | h <;> subst h <;> decide
  have hw := wrap8_neg_unit d hd
  have h2b : env.touchingBounds s.readBounds.nBounds = d := h2
  unfold attack_exit
  simp only [h1, h2b, hw, ne_eq, hd0, not_false_eq_true, if_true]

theorem attack_exit_opposite_side (env : Env) (d : Int) (s : St) (hd : d = 1 ∨ d = -1)
    (h : ∀ k, k < 4 → env.touchingBounds (s.nBounds + k) = -d) :
    attack_exit env d s
      = routines_spin env (-d)
          ((s.readBounds.readBounds.readBounds.readBounds).emit (.call_spin (-d))) := by
  have hd0 : -d ≠ 0 := by rcases hd with h | h <;> subst h <;> decide
  have hne : -d ≠ d := by rcases hd with h | h <;> subst h <;> decide
  have hw := wrap8_neg_unit d hd
  have h0 : env.touchingBounds s.nBounds = -d := h 0 (by omega)
  have h1 : env.touchingBounds s.readBounds.nBounds = -d := h 1 (by omega)
  have h2 : env.touchingBounds s.readBounds.readBounds.nBounds = -d := h 2 (by omega)
  have h3 : env.touchingBounds s.readBounds.readBounds.readBounds.nBounds = -d :=
    h 3 (by omega)
  unfold attack_exit
  simp only [h0, h1, h2, h3, hw, ne_eq, hd0, hne, not_false_eq_true, if_true, if_false]

/-! ## C8 -/

/-- C8: for a charging direction `d` in {-1, +1}, when the Attack loop is left and the
boundary reads of lines 146 and 148 return `d`, `routines_attack` calls
`routines_victoryBack(-d)` exactly once and never `routines_spin`: after the charge
command its log holds this one call and the commands of the Recover maneuver.  In
particular, with `d = +1`, boundary contact +1 on the two cycles and on the two reads
after the loop, and every region read equal to 1 (misses stay 0), any budget of at least
2 cycles ends the episode with the one call `routines_victoryBack(-1)`. -/
theorem attack_contact_charging_side :
    (∀ (env : Env) (d : Int) (fuel : Nat) (s : St) (r : St × AttackVars),
      (d = 1 ∨ d = -1) →
      attack_loop env d fuel (s.emit (.setSpeed (3 * d) (3 * d))) ⟨0, 0⟩ = .done r →
      env.touchingBounds r.1.nBounds = d →
      env.touchingBounds (r.1.nBounds + 1) = d →
      routines_attack env d fuel s
        = .done (routines_victoryBack (-d)
            ((r.1.readBounds.readBounds).emit (.call_victoryBack (-d)))) ∧
      (routines_attack env d fuel s).val.log
        = s.log ++ [.setSpeed (3 * d) (3 * d), .call_victoryBack (-d),
            .setSpeed (3 * -d) (3 * -d), .greenSet 1,
            .delay_us 5, .beep, .delay_us 5, .beep, .delay_us 5, .beep,
            .delay_us 5, .beep, .delay_us 5, .beep, .greenSet 0] ∧
      maneuverCalls (routines_attack env d fuel s).val.log
        = maneuverCalls s.log ++ [.call_victoryBack (-d)]) ∧
    (∀ (env : Env) (fuel : Nat) (s : St),
      (∀ k, k < 4 → env.touchingBounds (s.nBounds + k) = 1) →
      (∀ k, env.getRegion k = 1) →
      (routines_attack env 1 (fuel + 2) s).isDone = true ∧
      maneuverCalls (routines_attack env 1 (fuel + 2) s).val.log
        = maneuverCalls s.log ++ [.call_victoryBack (-1)]) := by
  have main : ∀ (env : Env) (d : Int) (fuel : Nat) (s : St) (r : St × AttackVars),
      (d = 1 ∨ d = -1) →
      attack_loop env d fuel (s.emit (.setSpeed (3 * d) (3 * d))) ⟨0, 0⟩ = .done r →
      env.touchingBounds r.1.nBounds = d →
      env.touchingBounds (r.1.nBounds + 1) = d →
      routines_attack env d fuel s
        = .done (routines_victoryBack (-d)
            ((r.1.readBounds.readBounds).emit (.call_victoryBack (-d)))) ∧
      (routines_attack env d fuel s).val.log
        = s.log ++ [.setSpeed (3 * d) (3 * d), .call_victoryBack (-d),
            .setSpeed (3 * -d) (3 * -d), .greenSet 1,
            .delay_us 5, .beep, .delay_us 5, .beep, .delay_us 5, .beep,
            .delay_us 5, .beep, .delay_us 5, .beep, .greenSet 0] ∧
      maneuverCalls (routines_attack env d fuel s).val.log
        = maneuverCalls s.log ++ [.call_victoryBack (-d)] := by
    intro env d fuel s r hd hloop h1 h2
    have hrun := routines_attack_done env d fuel s r hloop
    rw [attack_exit_charging_side env d r.1 hd h1 h2] at hrun
    have hlog := attack_loop_log env d fuel (s.emit (.setSpeed (3 * d) (3 * d))) ⟨0, 0⟩
    rw [hloop] at hlog
    simp only [Run.val] at hlog
    have hfinal : (routines_attack env d fuel s).val.log
        = s.log ++ [.setSpeed (3 * d) (3 * d), .call_victoryBack (-d),
            .setSpeed (3 * -d) (3 * -d), .greenSet 1,
            .delay_us 5, .beep, .delay_us 5, .beep, .delay_us 5, .beep,
            .delay_us 5, .beep, .delay_us 5, .beep, .greenSet 0] := by
      rw [hrun]
      simp only [Run.val]
      rw [routines_victoryBack_log]
      simp [St.emit, St.readBounds, hlog]
    refine ⟨hrun, hfinal, ?_⟩
    rw [hfinal, maneuverCalls_append]
    simp [maneuverCalls]
  refine ⟨main, ?_⟩
  intro env fuel s hb hr
  obtain ⟨r, hloop, hnb, _⟩ := attack_loop_two_contacts env 1 1 fuel
    (s.emit (.setSpeed (3 * 1) (3 * 1))) (by decide) (fun k hk => hb k (by omega)) hr
  have hnb2 : r.1.nBounds = s.nBounds + 2 := hnb
  obtain ⟨hrun, _, hcalls⟩ := main env 1 (fuel + 2) s r (Or.inl rfl) hloop
    (by rw [hnb2]; exact hb 2 (by omega)) (by rw [hnb2]; exact hb 3 (by omega))
  refine ⟨by rw [hrun]; rfl, hcalls⟩

/-- C8 at a concrete input: charging towards +1 with boundary contact +1 throughout. -/
theorem attack_contact_charging_side_witness :
    attack_loop envPushedOut 1 2 (St.init.emit (.setSpeed (3 * 1) (3 * 1))) ⟨0, 0⟩
      = .done (⟨2, 2, 2, 0, 0, [.setSpeed 3 3]⟩, ⟨0, 2⟩) ∧
    (routines_attack envPushedOut 1 2 St.init).val.log
      = [.setSpeed 3 3, .call_victoryBack (-1), .setSpeed (-3) (-3), .greenSet 1,
          .delay_us 5, .beep, .delay_us 5, .beep, .delay_us 5, .beep,
          .delay_us 5, .beep, .delay_us 5, .beep, .greenSet 0] ∧
    maneuverCalls (routines_attack envPushedOut 1 2 St.init).val.log
      = maneuverCalls St.init.log ++ [.call_victoryBack (-1)] ∧
    maneuverCalls (routines_attack envPushedOut 1 (0 + 2) St.init).val.log
      = maneuverCalls St.init.log ++ [.call_victoryBack (-1)] :=
  ⟨by decide, by decide,
    (attack_contact_charging_side.1 envPushedOut 1 2 St.init
      (⟨2, 2, 2, 0, 0, [.setSpeed 3 3]⟩, ⟨0, 2⟩) (by decide) (by decide) (by decide)
      (by decide)).2.2,
    (attack_contact_charging_side.2 envPushedOut 0 St.init (by decide)
      (fun _ => rfl)).2⟩

/-! ## C9 -/

/-- C9: for a charging direction `d` in {-1, +1}, when the Attack loop is left and the
boundary reads of lines 146, 148, 152 and 155 return `-d`, `routines_attack` calls
`routines_spin(-d)` exactly once and never `routines_victoryBack`: after the charge command
its log holds this one call and the commands of the Evade maneuver.  In particular, with
`d = +1`, boundary contact -1 on the two cycles and on the four reads after the loop, and
every region read equal to 1, any budget of at least 2 cycles ends the episode with the
one call `routines_spin(-1)`. -/
theorem attack_contact_opposite_side :
    (∀ (env : Env) (d : Int) (fuel : Nat) (s : St) (r : St × AttackVars),
      (d = 1 ∨ d = -1) →
      attack_loop env d fuel (s.emit (.setSpeed (3 * d) (3 * d))) ⟨0, 0⟩ = .done r →
      (∀ k, k < 4 → env.touchingBounds (r.1.nBounds + k) = -d) →
      routines_attack env d fuel s
        = .done (routines_spin env (-d)
            ((r.1.readBounds.readBounds.readBounds.readBounds).emit (.call_spin (-d)))) ∧
      (routines_attack env d fuel s).val.log
        = s.log ++ [.setSpeed (3 * d) (3 * d), .call_spin (-d),
            (if env.dirTurn = -1 then .setSpeed (-(-d)) (3 * -d)
              else .setSpeed (3 * -d) (-(-d))),
            .delay_us 5, .delay_us 5, .delay_us 5, .delay_us 5, .delay_us 5] ∧
      maneuverCalls (routines_attack env d fuel s).val.log
        = maneuverCalls s.log ++ [.call_spin (-d)]) ∧
    (∀ (env : Env) (fuel : Nat) (s : St),
      (∀ k, k < 6 → env.touchingBounds (s.nBounds + k) = -1) →
      (∀ k, env.getRegion k = 1) →
      (routines_attack env 1 (fuel + 2) s).isDone = true ∧
      maneuverCalls (routines_attack env 1 (fuel + 2) s).val.log
        = maneuverCalls s.log ++ [.call_spin (-1)]) := by
  have main : ∀ (env : Env) (d : Int) (fuel : Nat) (s : St) (r : St × AttackVars),
      (d = 1 ∨ d = -1) →
      attack_loop env d fuel (s.emit (.setSpeed (3 * d) (3 * d))) ⟨0, 0⟩ = .done r →
      (∀ k, k < 4 → env.touchingBounds (r.1.nBounds + k) = -d) →
      routines_attack env d fuel s
        = .done (routines_spin env (-d)
            ((r.1.readBounds.readBounds.readBounds.readBounds).emit (.call_spin (-d)))) ∧
      (routines_attack env d fuel s).val.log
        = s.log ++ [.setSpeed (3 * d) (3 * d), .call_spin (-d),
            (if env.dirTurn = -1 then .setSpeed (-(-d)) (3 * -d)
              else .setSpeed (3 * -d) (-(-d))),
            .delay_us 5, .delay_us 5, .delay_us 5, .delay_us 5, .delay_us 5] ∧
      maneuverCalls (routines_attack env d fuel s).val.log
        = maneuverCalls s.log ++ [.call_spin (-d)] := by
    intro env d fuel s r hd hloop hb
    have hrun := routines_attack_done env d fuel s r hloop
    rw [attack_exit_opposite_side env d r.1 hd hb] at hrun
    have hlog := attack_loop_log env d fuel (s.emit (.setSpeed (3 * d) (3 * d))) ⟨0, 0⟩
    rw [hloop] at hlog
    simp only [Run.val] at hlog
    have hfinal : (routines_attack env d fuel s).val.log
        = s.log ++ [.setSpeed (3 * d) (3 * d), .call_spin (-d),
            (if env.dirTurn = -1 then .setSpeed (-(-d)) (3 * -d)
              else .setSpeed (3 * -d) (-(-d))),
            .delay_us 5, .delay_us 5, .delay_us 5, .delay_us 5, .delay_us 5] := by
      rw [hrun]
      simp only [Run.val]
      rw [routines_spin_log]
      simp [St.emit, St.readBounds, hlog]
    refine ⟨hrun, hfinal, ?_⟩
    rw [hfinal, maneuverCalls_append]
    by_cases ht : env.dirTurn = -1 <;> simp [maneuverCalls, ht]
  refine ⟨main, ?_⟩
  intro env fuel s hb hr
  obtain ⟨r, hloop, hnb, _⟩ := attack_loop_two_contacts env 1 (-1) fuel
    (s.emit (.setSpeed (3 * 1) (3 * 1))) (by decide) (fun k hk => hb k (by omega)) hr
  have hnb2 : r.1.nBounds = s.nBounds + 2 := hnb
  obtain ⟨hrun, _, hcalls⟩ := main env 1 (fuel + 2) s r (Or.inl rfl) hloop
    (fun k hk => by rw [hnb2, Nat.add_assoc]; exact hb (2 + k) (by omega))
  refine ⟨by rw [hrun]; rfl, hcalls⟩

/-- C9 at a concrete input: charging towards +1 with boundary contact -1 throughout. -/
theorem attack_contact_opposite_side_witness :
    attack_loop envBeingPushed 1 2 (St.init.emit (.setSpeed (3 * 1) (3 * 1))) ⟨0, 0⟩
      = .done (⟨2, 2, 2, 0, 0, [.setSpeed 3 3]⟩, ⟨0, 2⟩) ∧
    (routines_attack envBeingPushed 1 2 St.init).val.log
      = [.setSpeed 3 3, .call_spin (-1), .setSpeed (-3) 1,
          .delay_us 5, .delay_us 5, .delay_us 5, .delay_us 5, .delay_us 5] ∧
    maneuverCalls (routines_attack envBeingPushed 1 2 St.init).val.log
      = maneuverCalls St.init.log ++ [.call_spin (-1)] ∧
    maneuverCalls (routines_attack envBeingPushed 1 (0 + 2) St.init).val.log
      = maneuverCalls St.init.log ++ [.call_spin (-1)] :=
  ⟨by decide, by decide,
    (attack_contact_opposite_side.1 envBeingPushed 1 2 St.init
      (⟨2, 2, 2, 0, 0, [.setSpeed 3 3]⟩, ⟨0, 2⟩) (by decide) (by decide) (by decide)).2.2,
    (attack_contact_opposite_side.2 envBeingPushed 0 St.init (by decide)
      (fun _ => rfl)).2⟩

/-! ## C10 -/

/-- With fresh mismatching samples and no boundary contact the loop counts one miss a
cycle: started after `k` such cycles with a budget of `n` more, it is left in the state
after the eighth, or interrupted in the state after `k + n`. -/
theorem attack_loop_misses (env : Env) (d : Int) (s : St)
    (hfresh : ∀ k, k < 8 → env.isNewDist (s.nNew + k) d = true)
    (hmiss : ∀ k, k < 8 → env.getRegion (s.nRegion + 2 * k + 1) ≠ d)
    (hnb : ∀ k, k < 8 → env.touchingBounds (s.nBounds + k) = 0) :
    ∀ (n k : Nat), k + n ≤ 8 →
      attack_loop env d n
          ⟨s.nBounds + k, s.nRegion + 2 * k, s.nNew + k, s.nSpeed, s.nDist, s.log⟩ ⟨k, 0⟩
        = if k + n = 8 then
            .done (⟨s.nBounds + 8, s.nRegion + 16, s.nNew + 8, s.nSpeed, s.nDist, s.log⟩,
              ⟨8, 0⟩)
          else
            .more (⟨s.nBounds + (k + n), s.nRegion + 2 * (k + n), s.nNew + (k + n),
              s.nSpeed, s.nDist, s.log⟩, ⟨k + n, 0⟩) := by
  intro n
  induction n with
  | zero =>
    intro k hk
    by_cases h8 : k = 8
    · subst h8
      rw [attack_loop_exit env d 0 _ _ (by simp [MAX_TRACKING_MISSES])]
      simp
    · rw [attack_loop_zero env d _ _
        (by simp only [MAX_TRACKING_MISSES, MAX_TRACKING_BOUNDS]; omega)]
      simp [h8]
  | succ n ih =>
    intro k hk
    have hk8 : k < 8 := by omega
    rw [attack_loop_succ env d n _ _
      (by simp only [MAX_TRACKING_MISSES, MAX_TRACKING_BOUNDS]; omega)]
    have hst : (attack_body env d
        ⟨s.nBounds + k, s.nRegion + 2 * k, s.nNew + k, s.nSpeed, s.nDist, s.log⟩ ⟨k, 0⟩).1
        = ⟨s.nBounds + (k + 1), s.nRegion + 2 * (k + 1), s.nNew + (k + 1), s.nSpeed,
            s.nDist, s.log⟩ := by
      rw [attack_body_state]
      simp only [hfresh k hk8, if_true]
      rfl
    have hv : (attack_body env d
        ⟨s.nBounds + k, s.nRegion + 2 * k, s.nNew + k, s.nSpeed, s.nDist, s.log⟩ ⟨k, 0⟩).2
        = ⟨k + 1, 0⟩ := by
      show (⟨(attack_body env d _ ⟨k, 0⟩).2.missCounter,
        (attack_body env d _ ⟨k, 0⟩).2.boundCounter⟩ : AttackVars) = _
      rw [attack_body_miss, attack_body_bound]
      simp only [hfresh k hk8, hnb k hk8, if_true, ne_eq, not_true_eq_false, if_false,
        hmiss k hk8, not_false_eq_true]
      rw [incU8_of_lt (by omega)]
    rw [hst, hv, ih (k + 1) (by omega)]
    have e : k + 1 + n = k + (n + 1) := by omega
    rw [e]

/-- C10: if the first eight cycles of `routines_attack` each see a fresh sample whose region
(the second `sonar_getRegion()` of the cycle) differs from the charging direction `d`, and
no boundary read returns contact, then the loop is still running after fewer than 8 cycles
and is left after exactly 8 with `missCounter = 8`, `boundCounter = 0`; `routines_attack`
then returns without calling a maneuver, its log holding the charge command `(3d, 3d)`
only. -/
theorem attack_eight_misses (env : Env) (d : Int) (s : St)
    (hfresh : ∀ k, k < 8 → env.isNewDist (s.nNew + k) d = true)
    (hmiss : ∀ k, k < 8 → env.getRegion (s.nRegion + 2 * k + 1) ≠ d)
    (hnb : ∀ k, k ≤ 8 → env.touchingBounds (s.nBounds + k) = 0) :
    MAX_TRACKING_MISSES = 8 ∧
    attack_loop env d 8 (s.emit (.setSpeed (3 * d) (3 * d))) ⟨0, 0⟩
      = .done (⟨s.nBounds + 8, s.nRegion + 16, s.nNew + 8, s.nSpeed, s.nDist,
          s.log ++ [.setSpeed (3 * d) (3 * d)]⟩, ⟨8, 0⟩) ∧
    (∀ n, n < 8 →
      attack_loop env d n (s.emit (.setSpeed (3 * d) (3 * d))) ⟨0, 0⟩
        = .more (⟨s.nBounds + n, s.nRegion + 2 * n, s.nNew + n, s.nSpeed, s.nDist,
            s.log ++ [.setSpeed (3 * d) (3 * d)]⟩, ⟨n, 0⟩)) ∧
    (∀ fuel, 8 ≤ fuel →
      routines_attack env d fuel s
        = .done ⟨s.nBounds + 9, s.nRegion + 16, s.nNew + 8, s.nSpeed, s.nDist,
            s.log ++ [.setSpeed (3 * d) (3 * d)]⟩) ∧
    (∀ fuel, 8 ≤ fuel →
      maneuverCalls (routines_attack env d fuel s).val.log = maneuverCalls s.log) := by
  have key := attack_loop_misses env d (s.emit (.setSpeed (3 * d) (3 * d))) hfresh hmiss
    (fun k hk => hnb k (by omega))
  have h8 : attack_loop env d 8 (s.emit (.setSpeed (3 * d) (3 * d))) ⟨0, 0⟩
      = .done (⟨s.nBounds + 8, s.nRegion + 16, s.nNew + 8, s.nSpeed, s.nDist,
          s.log ++ [.setSpeed (3 * d) (3 * d)]⟩, ⟨8, 0⟩) := by
    have := key 8 0 (by omega)
    rw [if_pos (by omega)] at this
    exact this
  have hrun : ∀ fuel, 8 ≤ fuel →
      routines_attack env d fuel s
        = .done ⟨s.nBounds + 9, s.nRegion + 16, s.nNew + 8, s.nSpeed, s.nDist,
            s.log ++ [.setSpeed (3 * d) (3 * d)]⟩ := by
    intro fuel hf
    have hloop := attack_loop_done_mono env d 8 _ _ _ fuel h8 hf
    rw [routines_attack_done env d fuel s _ hloop]
    have h0 : env.touchingBounds (s.nBounds + 8) = 0 := hnb 8 (by omega)
    simp [attack_exit, h0, St.readBounds]
  refine ⟨rfl, h8, ?_, hrun, ?_⟩
  · intro n hn
    have := key n 0 (by omega)
    rw [if_neg (by omega)] at this
    simp only [Nat.zero_add] at this
    exact this
  · intro fuel hf
    rw [hrun fuel hf]
    simp [Run.val, maneuverCalls]

/-- C10 at a concrete input: every sample fresh and reporting -1 while charging towards 1,
no boundary contact. -/
theorem attack_eight_misses_witness :
    routines_attack envLostTarget 1 8 St.init = .done ⟨9, 16, 8, 0, 0, [.setSpeed 3 3]⟩ ∧
    (MAX_TRACKING_MISSES = 8 ∧
    attack_loop envLostTarget 1 8 (St.init.emit (.setSpeed (3 * 1) (3 * 1))) ⟨0, 0⟩
      = .done (⟨St.init.nBounds + 8, St.init.nRegion + 16, St.init.nNew + 8, St.init.nSpeed,
          St.init.nDist, St.init.log ++ [.setSpeed (3 * 1) (3 * 1)]⟩, ⟨8, 0⟩) ∧
    (∀ n, n < 8 →
      attack_loop envLostTarget 1 n (St.init.emit (.setSpeed (3 * 1) (3 * 1))) ⟨0, 0⟩
        = .more (⟨St.init.nBounds + n, St.init.nRegion + 2 * n, St.init.nNew + n,
            St.init.nSpeed, St.init.nDist,
            St.init.log ++ [.setSpeed (3 * 1) (3 * 1)]⟩, ⟨n, 0⟩)) ∧
    (∀ fuel, 8 ≤ fuel →
      routines_attack envLostTarget 1 fuel St.init
        = .done ⟨St.init.nBounds + 9, St.init.nRegion + 16, St.init.nNew + 8,
            St.init.nSpeed, St.init.nDist,
            St.init.log ++ [.setSpeed (3 * 1) (3 * 1)]⟩) ∧
    (∀ fuel, 8 ≤ fuel →
      maneuverCalls (routines_attack envLostTarget 1 fuel St.init).val.log
        = maneuverCalls St.init.log)) :=
  ⟨by decide, attack_eight_misses envLostTarget 1 St.init (fun _ _ => rfl)
    (fun _ _ => (by decide : (-1 : Int) ≠ 1)) (fun _ _ => rfl)⟩

/-! ## C11 -/

/-- C11: whatever the direction and whatever the sensors answer, `routines_spin` runs its
loop `SPINOFF_COUNT = 5` times (5 calls of `sonar_getDistance`, 5 delays) and
`routines_victoryBack` runs its loop `BACKUP_COUNT = 5` times (5 beeps, 5 calls of
`sonar_getRegion`); the final state and the commands are given in closed form, and they are
the same in every environment with the same `motor_dirTurn`. -/
theorem maneuvers_fixed_cycles (env : Env) (d : Int) (s : St) :
    SPINOFF_COUNT = 5 ∧ BACKUP_COUNT = 5 ∧
    routines_spin env d s
      = ⟨s.nBounds, s.nRegion, s.nNew, s.nSpeed, s.nDist + 5,
          s.log ++ [(if env.dirTurn = -1 then .setSpeed (-d) (3 * d)
              else .setSpeed (3 * d) (-d)),
            .delay_us 5, .delay_us 5, .delay_us 5, .delay_us 5, .delay_us 5]⟩ ∧
    routines_victoryBack d s
      = ⟨s.nBounds, s.nRegion + 5, s.nNew, s.nSpeed, s.nDist,
          s.log ++ [.setSpeed (3 * d) (3 * d), .greenSet 1,
            .delay_us 5, .beep, .delay_us 5, .beep, .delay_us 5, .beep,
            .delay_us 5, .beep, .delay_us 5, .beep, .greenSet 0]⟩ ∧
    (∀ env2 : Env, env2.dirTurn = env.dirTurn →
      routines_spin env2 d s = routines_spin env d s) := by
  refine ⟨rfl, rfl, ?_, ?_, ?_⟩
  · by_cases h : env.dirTurn = -1 <;>
      simp [routines_spin, spin_loop, SPINOFF_COUNT, St.emit, St.readDist, h]
  · simp [routines_victoryBack, backup_loop, BACKUP_COUNT, St.emit, St.readRegion]
  · intro env2 h2
    unfold routines_spin
    rw [h2]

/-! ## C12 -/

theorem greenAfter_append (l1 l2 : List Event) :
    ∀ g : Int, greenAfter g (l1 ++ l2) = greenAfter (greenAfter g l1) l2 := by
  induction l1 with
  | nil => intro g; rfl
  | cons e l ih =>
    intro g
    cases e <;> simp [greenAfter, ih]

theorem greenAtBeeps_append (l1 l2 : List Event) :
    ∀ g : Int, greenAtBeeps g (l1 ++ l2)
      = greenAtBeeps g l1 ++ greenAtBeeps (greenAfter g l1) l2 := by
  induction l1 with
  | nil => intro g; rfl
  | cons e l ih =>
    intro g
    cases e <;> simp [greenAtBeeps, greenAfter, ih]

theorem indicatorCommands_append (l1 l2 : List Event) :
    indicatorCommands (l1 ++ l2) = indicatorCommands l1 ++ indicatorCommands l2 := by
  simp [indicatorCommands]

/-- C12: whatever the direction, the entry state and the sensors, the indicator commands
issued by `routines_victoryBack` are exactly: visual ON, five beeps, visual OFF; the visual
indicator is ON at each of the five beeps and OFF when the function returns, whatever it
showed before. -/
theorem victoryBack_indicator (d : Int) (s : St) (g : Int) :
    indicatorCommands (routines_victoryBack d s).log
      = indicatorCommands s.log
        ++ [.greenSet 1, .beep, .beep, .beep, .beep, .beep, .greenSet 0] ∧
    greenAtBeeps g (routines_victoryBack d s).log
      = greenAtBeeps g s.log ++ [1, 1, 1, 1, 1] ∧
    greenAfter g (routines_victoryBack d s).log = 0 := by
  rw [routines_victoryBack_log]
  refine ⟨?_, ?_, ?_⟩
  · rw [indicatorCommands_append]
    simp [indicatorCommands]
  · rw [greenAtBeeps_append]
    simp [greenAtBeeps]
  · rw [greenAfter_append]
    simp [greenAfter]

/-! ## C13 -/

theorem routines_attack_more (env : Env) (d : Int) (fuel : Nat) (s : St)
    (r : St × AttackVars)
    (h : attack_loop env d fuel (s.emit (.setSpeed (3 * d) (3 * d))) ⟨0, 0⟩ = .more r) :
    routines_attack env d fuel s = .more r.1 := by
  simp [routines_attack, h]

/-- C13 as stated fails: when every sample is stale, every region null and the boundary
never touched, no counter ever advances, so neither the loops of `routines_search` nor the
loop of `routines_attack` are left, whatever the number of cycles. -/
theorem loops_never_left_counterexample :
    (∀ fuel, (search_loop envQuiet fuel).isDone = false) ∧
    (∀ fuel, (routines_search envQuiet fuel).isDone = false) ∧
    (∀ fuel, (attack_loop envQuiet 1 fuel (St.init.emit (.setSpeed (3 * 1) (3 * 1)))
      ⟨0, 0⟩).isDone = false) ∧
    (∀ fuel, (routines_attack envQuiet 1 fuel St.init).isDone = false) := by
  have hs : ∀ fuel, (search_loop envQuiet fuel).isDone = false := by
    intro fuel
    have hinv : (search_loop envQuiet fuel).val.2.spotted = 0 := by
      unfold search_loop
      refine search_outer_inv envQuiet (fun _ v => v.spotted = 0) ?_ ?_ ?_ fuel _ _ rfl
      · intro s v h _ _
        exact h
      · intro s v h; exact h
      · intro s v h; exact h
    cases hr : search_loop envQuiet fuel with
    | more r => rfl
    | done r =>
      rw [hr] at hinv
      have := search_outer_done envQuiet fuel _ _ r hr
      simp only [Run.val] at hinv
      rw [hinv] at this
      exact absurd (by decide) this
  have ha : ∀ fuel, (attack_loop envQuiet 1 fuel (St.init.emit (.setSpeed (3 * 1) (3 * 1)))
      ⟨0, 0⟩).isDone = false := by
    intro fuel
    have hinv := attack_loop_inv envQuiet 1
      (fun _ v => v.missCounter = 0 ∧ v.boundCounter = 0)
      (by
        intro s v h _ _
        exact ⟨h.1, rfl⟩)
      fuel (St.init.emit (.setSpeed (3 * 1) (3 * 1))) ⟨0, 0⟩ ⟨rfl, rfl⟩
    cases hr : attack_loop envQuiet 1 fuel (St.init.emit (.setSpeed (3 * 1) (3 * 1)))
        ⟨0, 0⟩ with
    | more r => rfl
    | done r =>
      rw [hr] at hinv
      have := (attack_loop_cond envQuiet 1 fuel _ _ r).1 hr
      simp only [Run.val] at hinv
      rw [hinv.1, hinv.2] at this
      exact absurd (by decide) this
  refine ⟨hs, ?_, ha, ?_⟩
  · intro fuel
    have := hs fuel
    unfold routines_search
    cases hr : search_loop envQuiet fuel with
    | more r => rfl
    | done r => rw [hr] at this; cases this
  · intro fuel
    have := ha fuel
    cases hr : attack_loop envQuiet 1 fuel (St.init.emit (.setSpeed (3 * 1) (3 * 1)))
        ⟨0, 0⟩ with
    | more r => rw [routines_attack_more envQuiet 1 fuel St.init r hr]; rfl
    | done r => rw [hr] at this; cases this

/-- Boundary contact on the cycles `n + 1` and `n + 2` ends the Attack loop within `n + 2`
cycles. -/
theorem attack_loop_contacts_done (env : Env) (d : Int) :
    ∀ (n : Nat) (s : St) (v : AttackVars),
      env.touchingBounds (s.nBounds + n) ≠ 0 → env.touchingBounds (s.nBounds + n + 1) ≠ 0 →
      (attack_loop env d (n + 2) s v).isDone = true := by
  intro n
  induction n with
  | zero =>
    intro s v h0x h1x
    have h0 : env.touchingBounds s.nBounds ≠ 0 := h0x
    have h1 : env.touchingBounds (s.nBounds + 1) ≠ 0 := h1x
    by_cases g0 : v.missCounter < MAX_TRACKING_MISSES ∧ v.boundCounter < MAX_TRACKING_BOUNDS
    · rw [attack_loop_succ env d 1 s v g0]
      by_cases g1 : (attack_body env d s v).2.missCounter < MAX_TRACKING_MISSES ∧
          (attack_body env d s v).2.boundCounter < MAX_TRACKING_BOUNDS
      · rw [attack_loop_succ env d 0 _ _ g1]
        have hb1 : (attack_body env d s v).2.boundCounter = incU8 v.boundCounter := by
          rw [attack_body_bound, if_pos h0]
        have hn1 : (attack_body env d s v).1.nBounds = s.nBounds + 1 := by
          rw [attack_body_state]
        have hb2 : (attack_body env d (attack_body env d s v).1
            (attack_body env d s v).2).2.boundCounter
            = incU8 (attack_body env d s v).2.boundCounter := by
          rw [attack_body_bound, hn1, if_pos h1]
        rw [attack_loop_exit env d 0 _ _ (by
          rw [hb2, hb1]
          have := g0.2
          simp only [MAX_TRACKING_BOUNDS, incU8] at this ⊢
          omega)]
        rfl
      · rw [attack_loop_exit env d 1 _ _ g1]; rfl
    · rw [attack_loop_exit env d 2 s v g0]; rfl
  | succ n ih =>
    intro s v h0 h1
    by_cases g0 : v.missCounter < MAX_TRACKING_MISSES ∧ v.boundCounter < MAX_TRACKING_BOUNDS
    · rw [attack_loop_succ env d (n + 2) s v g0]
      have hn1 : (attack_body env d s v).1.nBounds = s.nBounds + 1 := by
        rw [attack_body_state]
      have e1 : s.nBounds + 1 + n = s.nBounds + (n + 1) := by omega
      exact ih _ _ (by rw [hn1, e1]; exact h0) (by rw [hn1, e1]; exact h1)
    · rw [attack_loop_exit env d (n + 1 + 2) s v g0]; rfl

/-- When every sample is fresh and every region read differs from the charging direction,
a loop still running after `n` cycles has counted `n` more misses. -/
theorem attack_loop_more_miss (env : Env) (d : Int)
    (hf : ∀ k, env.isNewDist k d = true) (hm : ∀ k, env.getRegion k ≠ d) :
    ∀ (n : Nat) (s : St) (v : AttackVars) (r : St × AttackVars),
      attack_loop env d n s v = .more r → r.2.missCounter = v.missCounter + n := by
  intro n
  induction n with
  | zero =>
    intro s v r h
    by_cases g0 : v.missCounter < MAX_TRACKING_MISSES ∧ v.boundCounter < MAX_TRACKING_BOUNDS
    · rw [attack_loop_zero env d s v g0] at h; cases h; rfl
    · rw [attack_loop_exit env d 0 s v g0] at h; cases h
  | succ n ih =>
    intro s v r h
    by_cases g0 : v.missCounter < MAX_TRACKING_MISSES ∧ v.boundCounter < MAX_TRACKING_BOUNDS
    · rw [attack_loop_succ env d n s v g0] at h
      rw [ih _ _ r h, attack_body_miss, if_pos (hf _), if_pos (hm _),
        incU8_of_lt (by have := g0.1; simp only [MAX_TRACKING_MISSES] at this; omega)]
      omega
    · rw [attack_loop_exit env d (n + 1) s v g0] at h; cases h

/-- Without boundary contact a run of Search interrupted with a budget of `fuel + 1` has
made exactly `fuel` polls. -/
theorem search_loop_polls (env : Env) (hb : ∀ k, env.touchingBounds k = 0) (fuel : Nat)
    (r : St × SearchVars) (h : search_loop env (fuel + 1) = .more r) :
    r.1.nRegion = fuel := by
  unfold search_loop at h
  have hstart : (search_start env St.init).nRegion = 0 := by
    unfold search_start; split_ifs <;> rfl
  rw [search_outer_succ env fuel _ _ (by simp [SPOTTED_THRESHOLD])] at h
  cases hr : search_inner env fuel (search_start env St.init) ⟨0, 0, 0⟩ with
  | more r1 =>
    rw [hr] at h
    cases h
    rw [(search_inner_polls env hb fuel _ _ r).1 hr, hstart]; omega
  | done r1 =>
    rw [hr] at h
    have hx := (search_inner_polls env hb fuel _ _ r1).2 hr
    have h2 : search_outer env fuel (search_flip env r1.1 r1.2) r1.2 = .more r := h
    rw [search_outer_exit env fuel _ _ hx] at h2
    cases h2

/-- Four polls in a row reporting the same non-null region bring the counter of the
specification to 3 at least. -/
theorem spottedSpec_four (env : Env) (n : Nat) (c : Int) (hc : c ≠ 0)
    (hreg : ∀ j, j < 4 → polledRegion env (n + j) = c) :
    3 ≤ spottedSpec env (n + 4) := by
  have step : ∀ m, polledRegion env m = c → polledRegion env (m + 1) = c →
      spottedSpec env (m + 2) = spottedSpec env (m + 1) + 1 := by
    intro m h1 h2
    show (if polledRegion env (m + 1) = 0 ∨
        polledRegion env (m + 1) ≠ regionBefore env (m + 1) then 0
      else spottedSpec env (m + 1) + 1) = _
    have e : regionBefore env (m + 1) = polledRegion env m := rfl
    rw [e, h1, h2, if_neg]
    rintro (h | h)
    · exact hc h
    · exact h rfl
  have h0 := hreg 0 (by omega)
  have h1 := hreg 1 (by omega)
  have h2 := hreg 2 (by omega)
  have h3 := hreg 3 (by omega)
  have s1 := step n h0 h1
  have s2 := step (n + 1) h1 h2
  have s3 := step (n + 2) h2 h3
  have e : n + 4 = n + 2 + 2 := by omega
  rw [e, s3, s2, s1]
  omega

/-- C13 (amended): the Evade and Recover loops end after their fixed 5 cycles on every
input.  The Attack and Search loops have no timeout and end only through their counters:
the Attack loop is left within `n + 2` cycles when the boundary reads of the cycles
`n + 1` and `n + 2` return contact, and within 8 cycles when every sample is fresh and
every region read differs from the charging direction; the Search loops are left within
`n + 4` polls when every sample is fresh, the boundary is never touched and the polls
`n + 1` to `n + 4` report the same non-null region. -/
theorem loops_left_by_threshold :
    (∀ (env : Env) (d : Int) (s : St),
      (routines_spin env d s).nDist = s.nDist + SPINOFF_COUNT ∧
      (routines_victoryBack d s).nRegion = s.nRegion + BACKUP_COUNT) ∧
    (∀ (env : Env) (d : Int) (s : St) (n : Nat),
      env.touchingBounds (s.nBounds + n) ≠ 0 → env.touchingBounds (s.nBounds + n + 1) ≠ 0 →
      (attack_loop env d (n + 2) s ⟨0, 0⟩).isDone = true) ∧
    (∀ (env : Env) (d : Int) (s : St),
      (∀ k, env.isNewDist k d = true) → (∀ k, env.getRegion k ≠ d) →
      (attack_loop env d 8 s ⟨0, 0⟩).isDone = true) ∧
    (∀ (env : Env) (n : Nat) (c : Int),
      (∀ k dir, env.isNewDist k dir = true) → (∀ k, env.touchingBounds k = 0) →
      c ≠ 0 → (∀ j, j < 4 → polledRegion env (n + j) = c) →
      (search_loop env (n + 5)).isDone = true) := by
  refine ⟨?_, ?_, ?_, ?_⟩
  · intro env d s
    constructor
    · by_cases h : env.dirTurn = -1 <;>
        simp [routines_spin, spin_loop, SPINOFF_COUNT, St.emit, St.readDist, h]
    · simp [routines_victoryBack, backup_loop, BACKUP_COUNT, St.emit, St.readRegion]
  · intro env d s n h0 h1
    exact attack_loop_contacts_done env d n s ⟨0, 0⟩ h0 h1
  · intro env d s hf hm
    cases hr : attack_loop env d 8 s ⟨0, 0⟩ with
    | done r => rfl
    | more r =>
      have h1 := attack_loop_more_miss env d hf hm 8 s _ r hr
      have h2 := ((attack_loop_cond env d 8 s _ r).2 hr).1
      simp only [MAX_TRACKING_MISSES] at h2
      simp only [Nat.zero_add] at h1
      omega
  · intro env n c hf hb hc hreg
    cases hr : search_loop env (n + 5) with
    | done r => rfl
    | more r =>
      have hp := search_loop_polls env hb (n + 4) r hr
      have hlt := search_outer_more env (n + 5) _ _ r hr
      obtain ⟨_, _, hsp⟩ := freshInv_loop env hf (n + 5)
      rw [hr] at hsp
      simp only [Run.val] at hsp
      have h3 := spottedSpec_four env n c hc hreg
      rw [hp] at hsp
      simp only [SPOTTED_THRESHOLD] at hlt
      omega

/-- C13 (amended) at concrete inputs: two boundary contacts end the Attack loop within two
cycles, and four fresh sightings of region 1 end Search within four polls. -/
theorem loops_left_by_threshold_witness :
    (attack_loop envTwoContacts 1 (0 + 2) St.init ⟨0, 0⟩).isDone = true ∧
    (attack_loop envLostTarget 1 8 St.init ⟨0, 0⟩).isDone = true ∧
    (search_loop envFourSightings (0 + 5)).isDone = true :=
  ⟨loops_left_by_threshold.2.1 envTwoContacts 1 St.init 0 (by decide) (by decide),
    loops_left_by_threshold.2.2.1 envLostTarget 1 St.init (fun _ => rfl)
      (fun _ => (by decide : (-1 : Int) ≠ 1)),
    loops_left_by_threshold.2.2.2 envFourSightings 0 1 (fun _ _ => rfl) (fun _ => rfl)
      (by decide) (by decide)⟩

/-! ## C14 -/

/-- C14: a poll cycle whose sample is not fresh leaves the proximity counter as it is: in
`routines_search` the body of the inner loop keeps `spotted`, in `routines_attack` the body
of the loop keeps `missCounter`, whatever the counter and whatever region the stale sample
reports. -/
theorem stale_poll_inert (env : Env) (d : Int) (s : St) (v : SearchVars) (a : AttackVars) :
    (env.isNewDist s.nNew (wrap8 (env.getRegion s.nRegion)) = false →
      (search_body env s v).2.spotted = v.spotted) ∧
    (env.isNewDist s.nNew d = false →
      (attack_body env d s a).2.missCounter = a.missCounter) := by
  constructor
  · intro h
    have e : (search_body env s v).2.spotted
        = if env.isNewDist s.nNew (wrap8 (env.getRegion s.nRegion)) = true then
            (if wrap8 (env.getRegion s.nRegion) = v.objDetected ∧
                wrap8 (env.getRegion s.nRegion) ≠ 0
              then incU8 v.spotted else 0)
          else v.spotted := rfl
    rw [e, h]
    simp
  · intro h
    rw [attack_body_miss, h]
    simp

/-- C14 at a concrete input: a stale poll reporting region 1 with `spotted = 2`, and a
stale cycle of Attack with `missCounter = 7`. -/
theorem stale_poll_inert_witness :
    (search_body envQuiet St.init ⟨1, 1, 2⟩).2.spotted = 2 ∧
    (attack_body envQuiet 1 St.init ⟨7, 0⟩).2.missCounter = 7 :=
  ⟨(stale_poll_inert envQuiet 1 St.init ⟨1, 1, 2⟩ ⟨7, 0⟩).1 rfl,
    (stale_poll_inert envQuiet 1 St.init ⟨1, 1, 2⟩ ⟨7, 0⟩).2 rfl⟩

/-! ## C15 -/

theorem driveCommands_append (l1 l2 : List Event) :
    driveCommands (l1 ++ l2) = driveCommands l1 ++ driveCommands l2 := by
  simp [driveCommands]

/-- C15: for `d` in {-1, +1}, `routines_spin(d)` issues exactly one drive command:
`(-d, 3d)` when `motor_dirTurn` is -1 (turning left) and `(3d, -d)` otherwise; one wheel
has magnitude 1, the other magnitude 3, and the two speeds have opposite signs. -/
theorem spin_drive_command (env : Env) (d : Int) (s : St) (hd : d = 1 ∨ d = -1) :
    driveCommands (routines_spin env d s).log
      = driveCommands s.log
        ++ [if env.dirTurn = -1 then .setSpeed (-d) (3 * d) else .setSpeed (3 * d) (-d)] ∧
    Int.natAbs (-d) = 1 ∧ Int.natAbs (3 * d) = 3 ∧ (-d) * (3 * d) < 0 := by
  refine ⟨?_, ?_, ?_, ?_⟩
  · rw [routines_spin_log, driveCommands_append]
    by_cases h : env.dirTurn = -1 <;> simp [driveCommands, h]
  · rcases hd with h | h <;> subst h <;> decide
  · rcases hd with h | h <;> subst h <;> decide
  · rcases hd with h | h <;> subst h <;> decide

/-- C15 at concrete inputs: `d = 1` with the turn sense 1 (`envQuiet`) gives (3, -1). -/
theorem spin_drive_command_witness :
    driveCommands (routines_spin envQuiet 1 St.init).log
      = driveCommands St.init.log
        ++ [if envQuiet.dirTurn = -1 then .setSpeed (-1) (3 * 1) else .setSpeed (3 * 1) (-1)] ∧
    Int.natAbs (-1) = 1 ∧ Int.natAbs (3 * 1) = 3 ∧ (-1 : Int) * (3 * 1) < 0 :=
  spin_drive_command envQuiet 1 St.init (Or.inl rfl)

/-! ## C16 -/

theorem attack_exit_recover (env : Env) (d : Int) (s : St) (hd : d = 1 ∨ d = -1)
    (h1 : env.touchingBounds s.nBounds ≠ 0) (h2 : env.touchingBounds (s.nBounds + 1) = d) :
    attack_exit env d s
      = routines_victoryBack (-d) ((s.readBounds.readBounds).emit (.call_victoryBack (-d))) := by
  have hw := wrap8_neg_unit d hd
  have h2b : env.touchingBounds s.readBounds.nBounds = d := h2
  unfold attack_exit
  simp only [h1, h2b, hw, ne_eq, not_false_eq_true, if_true]

/-- C16: `routines_victoryBack(e)` issues exactly one drive command, `(3e, 3e)`; and for a
charging direction `d` in {-1, +1}, an Attack episode that ends in Recover (the loop is
left, the boundary read of line 146 returns contact and that of line 148 returns `d`)
issues the drive commands `(3d, 3d)` and then `(-3d, -3d)`, the negation of the charge
command on both wheels. -/
theorem recover_negates_charge :
    (∀ (e : Int) (s : St),
      driveCommands (routines_victoryBack e s).log
        = driveCommands s.log ++ [.setSpeed (3 * e) (3 * e)]) ∧
    (∀ (env : Env) (d : Int) (fuel : Nat) (s : St) (r : St × AttackVars),
      (d = 1 ∨ d = -1) →
      attack_loop env d fuel (s.emit (.setSpeed (3 * d) (3 * d))) ⟨0, 0⟩ = .done r →
      env.touchingBounds r.1.nBounds ≠ 0 →
      env.touchingBounds (r.1.nBounds + 1) = d →
      maneuverCalls (routines_attack env d fuel s).val.log
        = maneuverCalls s.log ++ [.call_victoryBack (-d)] ∧
      driveCommands (routines_attack env d fuel s).val.log
        = driveCommands s.log
          ++ [.setSpeed (3 * d) (3 * d), .setSpeed (-(3 * d)) (-(3 * d))]) := by
  constructor
  · intro e s
    rw [routines_victoryBack_log, driveCommands_append]
    simp [driveCommands]
  · intro env d fuel s r hd hloop h1 h2
    have hrun := routines_attack_done env d fuel s r hloop
    rw [attack_exit_recover env d r.1 hd h1 h2] at hrun
    have hlog := attack_loop_log env d fuel (s.emit (.setSpeed (3 * d) (3 * d))) ⟨0, 0⟩
    rw [hloop] at hlog
    simp only [Run.val] at hlog
    have hfinal : (routines_attack env d fuel s).val.log
        = s.log ++ [.setSpeed (3 * d) (3 * d), .call_victoryBack (-d),
            .setSpeed (3 * -d) (3 * -d), .greenSet 1,
            .delay_us 5, .beep, .delay_us 5, .beep, .delay_us 5, .beep,
            .delay_us 5, .beep, .delay_us 5, .beep, .greenSet 0] := by
      rw [hrun]
      simp only [Run.val]
      rw [routines_victoryBack_log]
      simp [St.emit, St.readBounds, hlog]
    rw [hfinal, maneuverCalls_append, driveCommands_append]
    constructor
    · simp [maneuverCalls]
    · simp [driveCommands]

/-- C16 at a concrete input: charging towards +1 with boundary contact +1 throughout gives
the drive commands (3, 3) and (-3, -3). -/
theorem recover_negates_charge_witness :
    driveCommands (routines_attack envPushedOut 1 2 St.init).val.log
      = [.setSpeed 3 3, .setSpeed (-3) (-3)] ∧
    driveCommands (routines_attack envPushedOut 1 2 St.init).val.log
      = driveCommands St.init.log
        ++ [.setSpeed (3 * 1) (3 * 1), .setSpeed (-(3 * 1)) (-(3 * 1))] :=
  ⟨by decide,
    (recover_negates_charge.2 envPushedOut 1 2 St.init
      (⟨2, 2, 2, 0, 0, [.setSpeed 3 3]⟩, ⟨0, 2⟩) (Or.inl rfl) (by decide) (by decide)
      (by decide)).2⟩

/-! ## C17 -/

/-- C17: after every number of steps of `routines_search`, whatever the polls and the
boundary contacts so far, `spotted <= 3`, and whenever a poll cycle runs `spotted < 3`, so
its `uint8_t` increment adds one without wrapping around; in every state in which the loop
of `routines_attack` is left or interrupted (these are the states after each cycle),
`missCounter <= 8` and `boundCounter <= 2`, and while it runs both are below their
thresholds, so their increments do not wrap either.  The same bounds hold at every result
of `search_loop`. -/
theorem counters_within_thresholds (env : Env) (d : Int) (fuel : Nat) (s : St) :
    (SPOTTED_THRESHOLD = 3 ∧ MAX_TRACKING_MISSES = 8 ∧ MAX_TRACKING_BOUNDS = 2) ∧
    (∀ n, (search_at env n).vars.spotted ≤ SPOTTED_THRESHOLD) ∧
    (∀ n, (search_at env n).point = .innerHead →
      env.touchingBounds (search_at env n).st.nBounds = 0 ∧
        (search_at env n).vars.spotted < SPOTTED_THRESHOLD →
      incU8 (search_at env n).vars.spotted = (search_at env n).vars.spotted + 1 ∧
      (search_at env (n + 1)).vars.spotted ≤ (search_at env n).vars.spotted + 1) ∧
    (search_loop env fuel).val.2.spotted ≤ SPOTTED_THRESHOLD ∧
    (attack_loop env d fuel s ⟨0, 0⟩).val.2.missCounter ≤ MAX_TRACKING_MISSES ∧
    (attack_loop env d fuel s ⟨0, 0⟩).val.2.boundCounter ≤ MAX_TRACKING_BOUNDS ∧
    (∀ r, search_loop env fuel = .more r → incU8 r.2.spotted = r.2.spotted + 1) ∧
    (∀ r, attack_loop env d fuel s ⟨0, 0⟩ = .more r →
      incU8 r.2.missCounter = r.2.missCounter + 1 ∧
      incU8 r.2.boundCounter = r.2.boundCounter + 1) := by
  have hle : ∀ n, (search_at env n).vars.spotted ≤ SPOTTED_THRESHOLD := by
    intro n
    refine search_at_inv env (fun _ v => v.spotted ≤ SPOTTED_THRESHOLD) ?_ ?_ ?_ ?_ n
    · simp [SPOTTED_THRESHOLD]
    · intro s v _ _ hlt
      simp only [search_body, SPOTTED_THRESHOLD, incU8] at *
      split_ifs <;> omega
    · intro s v h; exact h
    · intro s v h; exact h
  refine ⟨⟨rfl, rfl, rfl⟩, hle, ?_, ?_, ?_, ?_, ?_, ?_⟩
  · intro n hpoint hcond
    have hinc : incU8 (search_at env n).vars.spotted = (search_at env n).vars.spotted + 1 :=
      incU8_of_lt (by have := hcond.2; simp only [SPOTTED_THRESHOLD] at this; omega)
    refine ⟨hinc, ?_⟩
    rw [search_at_succ]
    generalize search_at env n = c at hpoint hcond hinc ⊢
    obtain ⟨p, s1, v1⟩ := c
    simp only at hpoint hcond hinc
    subst hpoint
    rw [search_step_inner, if_pos hcond]
    show (search_body env s1.readBounds v1).2.spotted ≤ v1.spotted + 1
    simp only [search_body]
    split_ifs <;> omega
  · exact search_outer_spotted_le env fuel _ _ (by simp [SPOTTED_THRESHOLD])
  · exact (attack_loop_counters_le env d fuel s ⟨0, 0⟩
      (by simp [MAX_TRACKING_MISSES, MAX_TRACKING_BOUNDS])).1
  · exact (attack_loop_counters_le env d fuel s ⟨0, 0⟩
      (by simp [MAX_TRACKING_MISSES, MAX_TRACKING_BOUNDS])).2
  · intro r h
    have := search_outer_more env fuel _ _ r h
    simp only [SPOTTED_THRESHOLD] at this
    exact incU8_of_lt (by omega)
  · intro r h
    have := (attack_loop_cond env d fuel s _ r).2 h
    simp only [MAX_TRACKING_MISSES, MAX_TRACKING_BOUNDS] at this
    exact ⟨incU8_of_lt (by omega), incU8_of_lt (by omega)⟩

/-- C17 at concrete inputs: in `envGap`, after three sightings and a boundary contact, step
6 is at the head of the inner loop with `spotted = 2` and a poll cycle runs; in
`envFourSightings` Search is still running after three polls with `spotted = 2`. -/
theorem counters_within_thresholds_witness :
    search_at envGap 6 = ⟨.innerHead, ⟨4, 3, 3, 0, 0, [.setSpeed 3 (-3)]⟩, ⟨1, 1, 2⟩⟩ ∧
    (incU8 (search_at envGap 6).vars.spotted = (search_at envGap 6).vars.spotted + 1 ∧
      (search_at envGap (6 + 1)).vars.spotted ≤ (search_at envGap 6).vars.spotted + 1) ∧
    search_loop envFourSightings 4
      = .more (⟨3, 3, 3, 0, 0, [.setSpeed 3 (-3)]⟩, ⟨1, 1, 2⟩) ∧
    incU8 2 = 2 + 1 :=
  ⟨by decide,
    (counters_within_thresholds envGap 1 4 St.init).2.2.1 6 (by decide) (by decide),
    by decide,
    (counters_within_thresholds envFourSightings 1 4 St.init).2.2.2.2.2.2.1
      (⟨3, 3, 3, 0, 0, [.setSpeed 3 (-3)]⟩, ⟨1, 1, 2⟩) (by decide)⟩

/-! ## C18 -/

theorem pollsInv_body (env : Env) (s : St) (v : SearchVars)
    (h : v.spotted ≤ s.nRegion - 1 ∧ (s.nRegion = 0 → v.objDetected = 0))
    (hlt : v.spotted < SPOTTED_THRESHOLD) :
    (search_body env s.readBounds v).2.spotted
        ≤ (search_body env s.readBounds v).1.nRegion - 1 ∧
      ((search_body env s.readBounds v).1.nRegion = 0 →
        (search_body env s.readBounds v).2.objDetected = 0) := by
  have e2 : (search_body env s.readBounds v).1.nRegion = s.nRegion + 1 := rfl
  have e4 : (search_body env s.readBounds v).2.spotted
      = if env.isNewDist s.nNew (polledRegion env s.nRegion) = true then
          (if polledRegion env s.nRegion = v.objDetected ∧ polledRegion env s.nRegion ≠ 0
            then incU8 v.spotted else 0)
        else v.spotted := rfl
  have hinc : incU8 v.spotted = v.spotted + 1 :=
    incU8_of_lt (by simp only [SPOTTED_THRESHOLD] at hlt; omega)
  rw [e2, e4]
  refine ⟨?_, fun h0 => absurd h0 (Nat.succ_ne_zero _)⟩
  by_cases hf : env.isNewDist s.nNew (polledRegion env s.nRegion) = true
  · rw [if_pos hf]
    by_cases hc : polledRegion env s.nRegion = v.objDetected ∧
        polledRegion env s.nRegion ≠ 0
    · rw [if_pos hc, hinc]
      have hne : s.nRegion ≠ 0 := by
        intro h0
        have := h.2 h0
        exact hc.2 (by rw [hc.1, this])
      have := h.1
      omega
    · rw [if_neg hc]; omega
  · rw [if_neg hf]
    have := h.1
    omega

theorem pollsInv_flip (env : Env) (s : St) (v : SearchVars)
    (h : v.spotted ≤ s.nRegion - 1 ∧ (s.nRegion = 0 → v.objDetected = 0)) :
    v.spotted ≤ (search_flip env s v).nRegion - 1 ∧
      ((search_flip env s v).nRegion = 0 → v.objDetected = 0) := by
  rw [(search_flip_nRegion env s v).1]
  exact h

theorem pollsInv_start (env : Env) :
    (0 : Nat) ≤ (search_start env St.init).nRegion - 1 ∧
      ((search_start env St.init).nRegion = 0 → (0 : Int) = 0) :=
  ⟨Nat.zero_le _, fun _ => rfl⟩

/-- C18: after every number of steps of `routines_search`, whatever the polls and the
boundary contacts so far, `spotted` is at most `n - 1` where `n` is the number of polls
made, the first poll never counting because `oldobjDetected` is null then; so the call of
`routines_attack` is reached only after at least 4 polls, and three fresh polls reporting
the same non-null region leave Search running with `spotted = 2`.  The same holds at every
result of `search_loop`. -/
theorem search_needs_four_polls (env : Env) (fuel : Nat) :
    (∀ n, (search_at env n).vars.spotted ≤ (search_at env n).st.nRegion - 1) ∧
    (∀ n, (search_at env n).point = .handoff → 4 ≤ (search_at env n).st.nRegion) ∧
    (search_loop env fuel).val.2.spotted ≤ (search_loop env fuel).val.1.nRegion - 1 ∧
    (∀ r, search_loop env fuel = .done r → 4 ≤ r.1.nRegion) ∧
    search_loop envFourSightings 4
      = .more (⟨3, 3, 3, 0, 0, [.setSpeed 3 (-3)]⟩, ⟨1, 1, 2⟩) ∧
    search_at envFourSightings 4
      = ⟨.innerHead, ⟨3, 3, 3, 0, 0, [.setSpeed 3 (-3)]⟩, ⟨1, 1, 2⟩⟩ := by
  have hat : ∀ n, (search_at env n).vars.spotted ≤ (search_at env n).st.nRegion - 1 := by
    intro n
    exact (search_at_inv env
      (fun s v => v.spotted ≤ s.nRegion - 1 ∧ (s.nRegion = 0 → v.objDetected = 0))
      (pollsInv_start env)
      (fun s v h _ hlt => pollsInv_body env s v h hlt)
      (fun s v h => h)
      (fun s v h => pollsInv_flip env s v h) n).1
  have hinv : (search_loop env fuel).val.2.spotted ≤ (search_loop env fuel).val.1.nRegion - 1 ∧
      ((search_loop env fuel).val.1.nRegion = 0 →
        (search_loop env fuel).val.2.objDetected = 0) := by
    unfold search_loop
    exact search_outer_inv env
      (fun s v => v.spotted ≤ s.nRegion - 1 ∧ (s.nRegion = 0 → v.objDetected = 0))
      (fun s v h _ hlt => pollsInv_body env s v h hlt)
      (fun s v h => h)
      (fun s v h => pollsInv_flip env s v h) fuel _ _ (pollsInv_start env)
  refine ⟨hat, ?_, hinv.1, ?_, by decide, by decide⟩
  · intro n hp
    have h1 := hat n
    have h2 := search_at_handoff env n hp
    simp only [SPOTTED_THRESHOLD] at h2
    omega
  · intro r h
    have h1 := hinv.1
    have h2 := search_outer_done env fuel _ _ r h
    rw [h] at h1
    simp only [Run.val, SPOTTED_THRESHOLD] at h1 h2
    omega

/-- C18 at concrete inputs: in `envGap`, after three sightings, a boundary contact and a
fourth poll (step 7), `spotted = 0 <= 4 - 1`; the hand-off of `envFourSightings` comes
after 4 polls. -/
theorem search_needs_four_polls_witness :
    search_at envGap 7 = ⟨.innerHead, ⟨5, 4, 4, 0, 0, [.setSpeed 3 (-3)]⟩, ⟨-1, 1, 0⟩⟩ ∧
    (search_at envGap 7).vars.spotted ≤ (search_at envGap 7).st.nRegion - 1 ∧
    search_at envFourSightings 7
      = ⟨.handoff, ⟨5, 4, 4, 0, 0, [.setSpeed 3 (-3)]⟩, ⟨1, 1, 3⟩⟩ ∧
    4 ≤ (search_at envFourSightings 7).st.nRegion ∧
    search_loop envFourSightings 5
      = .done (⟨5, 4, 4, 0, 0, [.setSpeed 3 (-3)]⟩, ⟨1, 1, 3⟩) ∧
    4 ≤ (4 : Nat) :=
  ⟨by decide,
    (search_needs_four_polls envGap 0).1 7,
    by decide,
    (search_needs_four_polls envFourSightings 0).2.1 7 (by decide),
    by decide,
    (search_needs_four_polls envFourSightings 5).2.2.2.1
      (⟨5, 4, 4, 0, 0, [.setSpeed 3 (-3)]⟩, ⟨1, 1, 3⟩) (by decide)⟩

/-! ## C19 -/

/-- The maneuver calls that lines 146-157 add to the log, as a function of the four
boundary reads that follow the loop. -/
theorem attack_exit_calls (env : Env) (d : Int) (s : St) :
    maneuverCalls ((attack_exit env d s).log.drop s.log.length)
      = if env.touchingBounds s.nBounds ≠ 0 then
          (if env.touchingBounds (s.nBounds + 1) = d then [.call_victoryBack (wrap8 (-d))]
           else if env.touchingBounds (s.nBounds + 2) = -d then
             [.call_spin (wrap8 (env.touchingBounds (s.nBounds + 3)))]
           else [])
        else [] := by
  have e1 : env.touchingBounds s.readBounds.nBounds = env.touchingBounds (s.nBounds + 1) := rfl
  have e2 : env.touchingBounds s.readBounds.readBounds.nBounds
      = env.touchingBounds (s.nBounds + 2) := rfl
  have e3 : env.touchingBounds s.readBounds.readBounds.readBounds.nBounds
      = env.touchingBounds (s.nBounds + 3) := rfl
  unfold attack_exit
  simp only [e1, e2, e3]
  by_cases h1 : env.touchingBounds s.nBounds ≠ 0
  · rw [if_pos h1, if_pos h1]
    by_cases h2 : env.touchingBounds (s.nBounds + 1) = d
    · rw [if_pos h2, if_pos h2, routines_victoryBack_log]
      simp [St.emit, St.readBounds, maneuverCalls]
    · rw [if_neg h2, if_neg h2]
      by_cases h3 : env.touchingBounds (s.nBounds + 2) = -d
      · rw [if_pos h3, if_pos h3, routines_spin_log]
        by_cases ht : env.dirTurn = -1 <;>
          simp [St.emit, St.readBounds, maneuverCalls, ht]
      · rw [if_neg h3, if_neg h3]
        simp [St.readBounds, maneuverCalls]
  · rw [if_neg h1, if_neg h1]
    simp [St.readBounds, maneuverCalls]

/-- C19: for `d` in {-1, +1}, what `routines_attack` does after its loop is `attack_exit`
on the state in which the loop was left, the counters playing no part, and the maneuver
calls it adds are the same for any two runs whose four boundary reads after the loop agree.
On `envLateContact d` the loop is left through `missCounter = 8` with `boundCounter = 0`
and `routines_victoryBack(-d)` is called all the same; on `envContactGone` the loop is left
with `boundCounter = 2` and no maneuver is called, the read after the loop returning no
contact. -/
theorem maneuver_from_exit_reading (d : Int) (hd : d = 1 ∨ d = -1) :
    (∀ (env : Env) (fuel : Nat) (s : St) (r : St × AttackVars),
      attack_loop env d fuel (s.emit (.setSpeed (3 * d) (3 * d))) ⟨0, 0⟩ = .done r →
      routines_attack env d fuel s = .done (attack_exit env d r.1)) ∧
    (∀ (env1 env2 : Env) (s1 s2 : St),
      (∀ k, k < 4 → env1.touchingBounds (s1.nBounds + k) = env2.touchingBounds (s2.nBounds + k)) →
      maneuverCalls ((attack_exit env1 d s1).log.drop s1.log.length)
        = maneuverCalls ((attack_exit env2 d s2).log.drop s2.log.length)) ∧
    (attack_loop (envLateContact d) d 8 (St.init.emit (.setSpeed (3 * d) (3 * d))) ⟨0, 0⟩
        = .done (⟨8, 16, 8, 0, 0, [.setSpeed (3 * d) (3 * d)]⟩, ⟨8, 0⟩) ∧
      maneuverCalls (routines_attack (envLateContact d) d 8 St.init).val.log
        = [.call_victoryBack (-d)]) ∧
    (attack_loop envContactGone d 2 (St.init.emit (.setSpeed (3 * d) (3 * d))) ⟨0, 0⟩
        = .done (⟨2, 2, 2, 0, 0, [.setSpeed (3 * d) (3 * d)]⟩, ⟨0, 2⟩) ∧
      envContactGone.touchingBounds 2 = 0 ∧
      maneuverCalls (routines_attack envContactGone d 2 St.init).val.log = []) := by
  refine ⟨?_, ?_, ?_, ?_⟩
  · intro env fuel s r h
    exact routines_attack_done env d fuel s r h
  · intro env1 env2 s1 s2 h
    have h0 := h 0 (by omega)
    rw [Nat.add_zero, Nat.add_zero] at h0
    rw [attack_exit_calls, attack_exit_calls, h0, h 1 (by omega), h 2 (by omega),
      h 3 (by omega)]
  · rcases hd with h | h <;> subst h <;> decide
  · rcases hd with h | h <;> subst h <;> decide

/-- C19 at a concrete input, `d = 1`. -/
theorem maneuver_from_exit_reading_witness :
    maneuverCalls (routines_attack (envLateContact 1) 1 8 St.init).val.log
      = [.call_victoryBack (-1)] ∧
    maneuverCalls (routines_attack envContactGone 1 2 St.init).val.log = [] :=
  ⟨(maneuver_from_exit_reading 1 (Or.inl rfl)).2.2.1.2,
    (maneuver_from_exit_reading 1 (Or.inl rfl)).2.2.2.2.2⟩

end SumoBot
